import Mathlib

/-!
Verification development for the stackql-deploy resource-reconciliation
engine (Rust sources under `src/`).  The execution-engine transport
(`pgwire_lite`), the template engine and the filesystem are collaborator
boundaries: the engine is modelled as a scripted oracle (a list of
pre-recorded responses consumed in order), and query templates are modelled
by their rendered text (`ParsedQuery.rendered`), matching how the
command modules consume them (`cou.rendered`, `eq.rendered`, ...).
Wall-clock sleeping between retry attempts is not modelled (it has no
observable effect on results); retry counting is modelled exactly.
-/

namespace StackqlDeploy

/-- A result row as delivered to the engine callers: an association list
from column name to string value (mirrors `Vec<HashMap<String, String>>`
construction in `core/utils.rs::run_stackql_query`). -/
def Row : Type := List (String × String)

instance : DecidableEq Row := by
  unfold Row
  infer_instance

/-- `HashMap::get` on a row. -/
def Row.find (r : Row) (k : String) : Option String :=
  (r.find? (fun p => p.1 == k)).map (fun p => p.2)

/-- Mirrors `utils/query.rs::QueryResult`: a data result (columns, rows,
notices), a command completion message, or an empty result. -/
inductive QueryResult : Type
  | data (columns : List String) (rows : List (List String)) (notices : List String)
  | command (msg : String)
  | empty
deriving DecidableEq

/-- Mirrors `execute_query(...) -> Result<QueryResult, String>`:
either a structured result or a transport-level error string. -/
inductive Resp : Type
  | ok (r : QueryResult)
  | fail (e : String)
deriving DecidableEq

/-- The observable machine state threaded through every operation:
`script` is the engine oracle (responses still to be delivered, in order),
`trace` records every statement dispatched to the engine in order,
`ctx` is the mutable global context (`CommandRunner.global_context`),
`ext` is the oracle for external script execution (`run_ext_script`). -/
structure St : Type where
  script : List Resp
  trace : List String
  ctx : List (String × String)
  ext : List (Except String Row)

instance {ε α : Type} [DecidableEq ε] [DecidableEq α] : DecidableEq (Except ε α) := fun a b =>
  match a, b with
  | Except.ok x, Except.ok y =>
      if h : x = y then Decidable.isTrue (by rw [h])
      else Decidable.isFalse (fun hh => by cases hh; exact h rfl)
  | Except.error x, Except.error y =>
      if h : x = y then Decidable.isTrue (by rw [h])
      else Decidable.isFalse (fun hh => by cases hh; exact h rfl)
  | Except.ok _, Except.error _ => Decidable.isFalse (fun hh => by cases hh)
  | Except.error _, Except.ok _ => Decidable.isFalse (fun hh => by cases hh)

instance : DecidableEq St := fun a b =>
  match a, b with
  | St.mk s1 t1 c1 e1, St.mk s2 t2 c2 e2 =>
      if h : s1 = s2 ∧ t1 = t2 ∧ c1 = c2 ∧ e1 = e2 then
        Decidable.isTrue (by obtain ⟨h1, h2, h3, h4⟩ := h; rw [h1, h2, h3, h4])
      else
        Decidable.isFalse (fun hh => by cases hh; exact h ⟨rfl, rfl, rfl, rfl⟩)

/-- The effect monad: state plus fatal termination
(`catch_error_and_exit` / `process::exit(1)`).  The final state is kept
even on fatal exit so that theorems can speak about the statements
dispatched before the process died. -/
def M (α : Type) : Type := St → Except String α × St

/-- `pure` for `M`. -/
def M.pure (a : α) : M α := fun s => (Except.ok a, s)

/-- `bind` for `M`: a fatal error short-circuits, keeping the state. -/
def M.bind (x : M α) (f : α → M β) : M β := fun s =>
  match x s with
  | (Except.ok a, s₁) => f a s₁
  | (Except.error e, s₁) => (Except.error e, s₁)

instance : Monad M where
  pure := M.pure
  bind := M.bind

/-- `catch_error_and_exit`: log the message and terminate the process. -/
def fatal (msg : String) : M α := fun s => (Except.error msg, s)

/-- Dispatch one statement to the engine: consume the next scripted
response and record the statement in the trace.  An exhausted script is
delivered as a transport error. -/
def execQ (q : String) (s : St) : Resp × St :=
  match s.script with
  | [] => (Resp.fail "connection closed", { s with trace := s.trace ++ [q] })
  | r :: rest => (r, { s with script := rest, trace := s.trace ++ [q] })

/-- `str::starts_with` (defined over the character list so that it
evaluates inside the kernel). -/
def strStartsWith (s p : String) : Bool := p.toList.isPrefixOf s.toList

/-- `str::ends_with`. -/
def strEndsWith (s p : String) : Bool := p.toList.isSuffixOf s.toList

/-- Whitespace stripped by `str::trim`: the values this tool trims contain
only ASCII whitespace. -/
def isRustWs (c : Char) : Bool := c = ' ' || c = '\t' || c = '\n' || c = '\r'

/-- `str::trim`. -/
def strTrim (s : String) : String :=
  String.mk (((s.toList.dropWhile isRustWs).reverse.dropWhile isRustWs).reverse)

/-- Remove a literal prefix from a character list, if present. -/
def dropPrefixChars : List Char → List Char → Option (List Char)
  | [], rest => some rest
  | _ :: _, [] => none
  | a :: p, b :: cs => if a = b then dropPrefixChars p cs else none

/-- Left-to-right, non-overlapping split on a non-empty separator (fuel is
the input length, always sufficient). -/
def splitOnCharsGo (sep : List Char) : Nat → List Char → List Char → List (List Char)
  | _, [], cur => [cur.reverse]
  | 0, cs, cur => [cur.reverse ++ cs]
  | fuel + 1, c :: rest, cur =>
      match dropPrefixChars sep (c :: rest) with
      | some rem => cur.reverse :: splitOnCharsGo sep fuel rem []
      | none => splitOnCharsGo sep fuel rest (c :: cur)

/-- `str::split` / `String::splitOn` semantics: the whole string for an
empty separator, otherwise all the fields between occurrences. -/
def strSplitOn (s sep : String) : List String :=
  if sep.isEmpty then [s]
  else (splitOnCharsGo sep.toList (s.toList.length + 1) s.toList []).map String.mk

/-- Substring test used for notice classification
(`notice.contains("error")`). -/
def strContains (s sub : String) : Bool :=
  (strSplitOn s sub).length != 1

/-- Value of a digit run. -/
def digitsToNat (cs : List Char) : Nat :=
  cs.foldl (fun acc c => acc * 10 + (c.toNat - 48)) 0

/-- A notice is error-shaped for the read path when it contains
`error` or starts with `ERROR` (`run_stackql_query` notice loop). -/
def noticeIsError (n : String) : Bool :=
  strContains n "error" || strStartsWith n "ERROR"

/-- Convert one engine row to a map, mirroring the column/value zip with
`"NULL"` for missing values in `run_stackql_query`. -/
def rowOf (columns : List String) (vals : List String) : Row :=
  columns.enum.map (fun p => (p.2, vals.getD p.1 "NULL"))

/-- The synthetic error-marker row returned when `suppress_errors` is set
and every attempt failed. -/
def markerRow (e : String) : Row := [("_stackql_deploy_error", e)]

/-- `str::parse::<i64>` model: optional sign followed by at least one
digit.  (Overflow of the 64-bit range is not modelled; all values in this
development are small.) -/
def parseI64 (s : String) : Option Int :=
  let core : List Char → Option Int := fun ds =>
    if !ds.isEmpty && ds.all Char.isDigit then some (digitsToNat ds) else none
  match s.toList with
  | '+' :: rest => core rest
  | '-' :: rest => (core rest).map (fun n => -n)
  | cs => core cs

/-- The count-cardinality gate of `run_stackql_query`: a `count` field on
the first row parsing to a value above 1 is immediately fatal; otherwise
the rows are returned. -/
def countCheck (maps : List Row) : Except String (List Row) :=
  match Row.find (maps.headD []) "count" with
  | some countStr =>
      match parseI64 countStr with
      | some c =>
          if c > 1 then
            Except.error "Detected more than one resource matching query criteria, expected 0 or 1"
          else Except.ok maps
      | none => Except.ok maps
  | none => Except.ok maps

/-- Outcome of one non-final attempt of the read-path retry loop: either a
final answer, or a retry instruction carrying the new `last_error` (if this
attempt produced one). -/
inductive StepOut : Type
  | final (out : Except String (List Row))
  | retry (newErr : Option String)

/-- One non-final attempt of `run_stackql_query` (`attempt < retries`).
Error notices and error-shaped rows only log and retry at this stage; the
count gate is fatal even here. -/
def queryAttemptStep (q : String) (s : St) : StepOut × St :=
  match execQ q s with
  | (Resp.fail e, s₁) => (StepOut.retry (some e), s₁)
  | (Resp.ok (QueryResult.command _), s₁) => (StepOut.final (Except.ok []), s₁)
  | (Resp.ok QueryResult.empty, s₁) => (StepOut.retry none, s₁)
  | (Resp.ok (QueryResult.data cols rows _notices), s₁) =>
      if rows.isEmpty then (StepOut.retry none, s₁)
      else
        let maps := rows.map (rowOf cols)
        match Row.find (maps.headD []) "error" with
        | some err => (StepOut.retry (some err), s₁)
        | none => (StepOut.final (countCheck maps), s₁)

/-- The final attempt of `run_stackql_query` (`attempt == retries`): empty
results return `[]`; error notices and error-shaped rows are fatal unless
`suppress_errors`, in which case the synthetic marker row is returned; the
count gate is fatal regardless. -/
def queryAttemptLast (q : String) (suppress : Bool) (s : St) :
    Except String (List Row) × St :=
  match execQ q s with
  | (Resp.fail e, s₁) =>
      if suppress then (Except.ok [markerRow e], s₁)
      else (Except.error ("Exception during stackql query execution: " ++ e), s₁)
  | (Resp.ok (QueryResult.command _), s₁) => (Except.ok [], s₁)
  | (Resp.ok QueryResult.empty, s₁) => (Except.ok [], s₁)
  | (Resp.ok (QueryResult.data cols rows notices), s₁) =>
      match notices.find? noticeIsError with
      | some n =>
          if suppress then (queryDataTail cols rows suppress, s₁)
          else (Except.error ("Error during stackql query execution: " ++ n), s₁)
      | none => (queryDataTail cols rows suppress, s₁)
where
  queryDataTail (cols : List String) (rows : List (List String)) (suppress : Bool) :
      Except String (List Row) :=
    if rows.isEmpty then Except.ok []
    else
      let maps := rows.map (rowOf cols)
      match Row.find (maps.headD []) "error" with
      | some err =>
          if suppress then Except.ok [markerRow err]
          else Except.error ("Error during stackql query execution: " ++ err)
      | none => countCheck maps

/-- The retry loop of `run_stackql_query`, recursing on the number of
retries remaining (the source loops `while attempt <= retries`, so
`remaining = retries` initially, giving `retries + 1` attempts). -/
def runQueryLoop (q : String) (suppress : Bool) : Nat → M (List Row)
  | 0 => fun s => queryAttemptLast q suppress s
  | Nat.succ r => fun s =>
      match queryAttemptStep q s with
      | (StepOut.final out, s₁) => (out, s₁)
      | (StepOut.retry _, s₁) => runQueryLoop q suppress r s₁

/-- `core/utils.rs::run_stackql_query` (the retry-delay parameter is kept
for signature fidelity; sleeping is unobservable in this model). -/
def run_stackql_query (q : String) (suppress : Bool) (retries : Nat) (_delay : Nat) :
    M (List Row) :=
  runQueryLoop q suppress retries

/-- The result-classification tail of `core/utils.rs::run_test`: empty
results and error-marker rows report success for a post-delete probe and
failure for an existence probe; a `count` field demands 0 (post-delete)
or exactly 1 (existence); a countless non-empty result counts as existing
only for a non-delete probe. -/
def runTestClassify (result : List Row) (deleteTest : Bool) : Bool :=
  if result.isEmpty then deleteTest
  else
    let first := result.headD []
    if (Row.find first "_stackql_deploy_error").isSome || (Row.find first "error").isSome then
      deleteTest
    else
      match Row.find first "count" with
      | some countStr =>
          match parseI64 countStr with
          | some c => if deleteTest then c == 0 else c == 1
          | none => !deleteTest
      | none => !deleteTest

/-- `core/utils.rs::run_test`: one suppressed single-attempt probe, then
classification. -/
def run_test (q : String) (deleteTest : Bool) : M Bool := do
  let result ← run_stackql_query q true 0 5
  pure (runTestClassify result deleteTest)

/-- `core/utils.rs::perform_retries`: run the probe while
`attempt < retries`, returning `true` on the first passing probe and
`false` once the budget is exhausted (note: at most `retries` probes,
and none at all when `retries = 0`). -/
def perform_retries (q : String) (retries : Nat) (_delay : Nat) (deleteTest : Bool) : M Bool :=
  match retries with
  | 0 => pure false
  | Nat.succ r => do
      let ok ← run_test q deleteTest
      if ok then pure true else perform_retries q r _delay deleteTest

/-! ## JSON values and the property-merge operation (`core/config.rs`)

`serde_json::Value` is modelled by `Json` (floating-point numbers are not
modelled; no claim depends on them).  `serde_json::to_string` is modelled
by `Json.ser` and `serde_json::from_str` by `jsonParse`, a parser for the
JSON subset the engine exchanges. -/

/-- Model of `serde_json::Value`. -/
inductive Json : Type
  | str (s : String)
  | num (n : Int)
  | bool (b : Bool)
  | null
  | arr (xs : List Json)
  | obj (fields : List (String × Json))

/-- An opening curly brace (kept out of string literals). -/
def lbrace : Char := Char.ofNat 123

/-- A closing curly brace (kept out of string literals). -/
def rbrace : Char := Char.ofNat 125

/-- A double-quote character as a string. -/
def qmark : String := "\""

/-- JSON string escaping (quotes and backslashes; the values exchanged in
this development contain no control characters). -/
def escapeJsonStr (s : String) : String :=
  s.toList.foldr
    (fun c acc =>
      (if c = '"' then "\\\"" else if c = '\\' then "\\\\" else String.singleton c) ++ acc)
    ""

mutual

/-- `serde_json::to_string` (compact form). -/
def Json.ser : Json → String
  | Json.str s => qmark ++ escapeJsonStr s ++ qmark
  | Json.num n => toString n
  | Json.bool b => if b then "true" else "false"
  | Json.null => "null"
  | Json.arr xs => "[" ++ serList xs ++ "]"
  | Json.obj fs => String.singleton lbrace ++ serFields fs ++ String.singleton rbrace

/-- Comma-joined serialization of array elements. -/
def serList : List Json → String
  | [] => ""
  | [x] => Json.ser x
  | x :: y :: xs => Json.ser x ++ "," ++ serList (y :: xs)

/-- Comma-joined serialization of object fields. -/
def serFields : List (String × Json) → String
  | [] => ""
  | [(k, v)] => qmark ++ escapeJsonStr k ++ qmark ++ ":" ++ Json.ser v
  | (k, v) :: f :: fs =>
      qmark ++ escapeJsonStr k ++ qmark ++ ":" ++ Json.ser v ++ "," ++ serFields (f :: fs)

end

/-- Whitespace per the JSON grammar. -/
def isWs (c : Char) : Bool := c = ' ' || c = '\n' || c = '\t' || c = '\r'

/-- Skip leading whitespace. -/
def skipWs (cs : List Char) : List Char := cs.dropWhile isWs

/-- Parse a JSON string body after the opening quote; returns the decoded
content and the remainder after the closing quote. -/
def parseStrBody : Nat → List Char → List Char → Option (String × List Char)
  | 0, _, _ => none
  | _, acc, '"' :: rest => some (String.mk acc.reverse, rest)
  | fuel + 1, acc, '\\' :: c :: rest =>
      let decoded : Option Char :=
        if c = '"' then some '"'
        else if c = '\\' then some '\\'
        else if c = '/' then some '/'
        else if c = 'n' then some '\n'
        else if c = 't' then some '\t'
        else if c = 'r' then some '\r'
        else none
      match decoded with
      | some d => parseStrBody fuel (d :: acc) rest
      | none => none
  | fuel + 1, acc, c :: rest => parseStrBody fuel (c :: acc) rest
  | _, _, [] => none

/-- Parse a run of decimal digits. -/
def parseDigits (cs : List Char) : Option (Nat × List Char) :=
  let digits := cs.takeWhile Char.isDigit
  if digits.isEmpty then none
  else some (digitsToNat digits, cs.drop digits.length)

mutual

/-- Fuel-driven JSON document parser. -/
def parseJ : Nat → List Char → Option (Json × List Char)
  | 0, _ => none
  | fuel + 1, cs =>
      match skipWs cs with
      | '"' :: rest =>
          match parseStrBody (rest.length + 1) [] rest with
          | some (s, rem) => some (Json.str s, rem)
          | none => none
      | '[' :: rest =>
          match skipWs rest with
          | ']' :: rem => some (Json.arr [], rem)
          | rest' => match parseArrItems fuel rest' with
            | some (xs, rem) => some (Json.arr xs, rem)
            | none => none
      | 't' :: 'r' :: 'u' :: 'e' :: rest => some (Json.bool true, rest)
      | 'f' :: 'a' :: 'l' :: 's' :: 'e' :: rest => some (Json.bool false, rest)
      | 'n' :: 'u' :: 'l' :: 'l' :: rest => some (Json.null, rest)
      | '-' :: rest =>
          match parseDigits rest with
          | some (n, rem) => some (Json.num (-(n : Int)), rem)
          | none => none
      | c :: rest =>
          if c = lbrace then
            match skipWs rest with
            | r :: rem => if r = rbrace then some (Json.obj [], rem) else
                match parseObjItems fuel (r :: rem) with
                | some (fs, rem') => some (Json.obj fs, rem')
                | none => none
            | [] => none
          else if c.isDigit then
            match parseDigits (c :: rest) with
            | some (n, rem) => some (Json.num (n : Int), rem)
            | none => none
          else none
      | [] => none

/-- Parse the items of a non-empty JSON array (after the opening bracket). -/
def parseArrItems : Nat → List Char → Option (List Json × List Char)
  | 0, _ => none
  | fuel + 1, cs =>
      match parseJ fuel cs with
      | some (x, rem) =>
          match skipWs rem with
          | ',' :: rest =>
              match parseArrItems fuel rest with
              | some (xs, rem') => some (x :: xs, rem')
              | none => none
          | ']' :: rest => some ([x], rest)
          | _ => none
      | none => none

/-- Parse the fields of a non-empty JSON object (after the opening brace). -/
def parseObjItems : Nat → List Char → Option (List (String × Json) × List Char)
  | 0, _ => none
  | fuel + 1, cs =>
      match skipWs cs with
      | '"' :: rest =>
          match parseStrBody (rest.length + 1) [] rest with
          | some (k, rem) =>
              match skipWs rem with
              | ':' :: rest' =>
                  match parseJ fuel rest' with
                  | some (v, rem') =>
                      match skipWs rem' with
                      | ',' :: rest'' =>
                          match parseObjItems fuel rest'' with
                          | some (fs, rem'') => some ((k, v) :: fs, rem'')
                          | none => none
                      | r :: rest'' =>
                          if r = rbrace then some ([(k, v)], rest'') else none
                      | [] => none
                  | none => none
              | _ => none
          | none => none
      | _ => none

end

/-- `serde_json::from_str` model: parse a complete JSON document. -/
def jsonParse (s : String) : Option Json :=
  match parseJ (s.length + 1) s.toList with
  | some (j, rem) => if (skipWs rem).isEmpty then some j else none
  | none => none

/-- Context lookup (`HashMap::get` on the string-valued context). -/
def lookupCtx (ctx : List (String × String)) (k : String) : Option String :=
  (ctx.find? (fun p => p.1 == k)).map (fun p => p.2)

/-- Insert-or-replace on an association list, mirroring `HashMap::insert`
(the position of a replaced key is retained; new keys are appended). -/
def insertKV (m : List (String × String)) (k v : String) : List (String × String) :=
  if (m.find? (fun p => p.1 == k)).isSome then
    m.map (fun p => if p.1 == k then (k, v) else p)
  else m ++ [(k, v)]

/-- The array-merge of `render_properties`: keep the base array and append
every merge item whose serialization is not already present in the base
(the dedup set is computed from the base only, exactly as in the source). -/
def mergeArrays (b m : List Json) : List Json :=
  b ++ m.filter (fun item => !((b.map Json.ser).contains (Json.ser item)))

/-- `serde_json::Map::insert` on the object model: replace in place or
append. -/
def insertField (fs : List (String × Json)) (k : String) (v : Json) :
    List (String × Json) :=
  if (fs.find? (fun p => p.1 == k)).isSome then
    fs.map (fun p => if p.1 == k then (k, v) else p)
  else fs ++ [(k, v)]

/-- The object-merge of `render_properties`: shallow overlay, right
operand winning key conflicts. -/
def overlayObj (b m : List (String × Json)) : List (String × Json) :=
  m.foldl (fun acc kv => insertField acc kv.1 kv.2) b

/-- One step of the merge loop in `render_properties` (the four-way match
on the pair of base value and merge value). -/
def mergeStep (propName : String) (base : Option Json) (mv : Json) :
    Except String (Option Json) :=
  match base, mv with
  | some (Json.arr b), Json.arr m => Except.ok (some (Json.arr (mergeArrays b m)))
  | some (Json.obj b), Json.obj m => Except.ok (some (Json.obj (overlayObj b m)))
  | none, v => Except.ok (some v)
  | _, _ =>
      Except.error ("Type mismatch or unsupported merge operation on property " ++ propName)

/-- The merge loop of `render_properties`: look each merge source up in
the resource context (fatal when missing), parse it as JSON (fatal when
invalid), and fold it into the base value. -/
def renderMergeLoop (propName : String) (ctx : List (String × String)) :
    Option Json → List String → Except String (Option Json)
  | base, [] => Except.ok base
  | base, item :: rest =>
      match lookupCtx ctx item with
      | none => Except.error ("Merge item not found in context: " ++ item)
      | some mvs =>
          match jsonParse mvs with
          | none => Except.error ("Merge item value is not valid JSON: " ++ item)
          | some mv =>
              match mergeStep propName base mv with
              | Except.ok base' => renderMergeLoop propName ctx base' rest
              | Except.error e => Except.error e

/-- The merge block of `core/config.rs::render_properties` (lines
227–295): the current property value is parsed as JSON (an unparseable
base silently becomes absent), every merge source is folded in, and a
present final value is re-serialized as the new property value (an absent
final value leaves the property's previous string untouched). -/
def renderMerge (propName : String) (baseStr : Option String) (mergeItems : List String)
    (ctx : List (String × String)) : Except String (Option String) :=
  (renderMergeLoop propName ctx (baseStr.bind jsonParse) mergeItems).map
    (fun b => b.map Json.ser)

/-! ## Data model (manifest resources as consumed by `commands/*`)

The `Resource`/`Manifest` shapes follow their use sites in
`commands/{base,build,teardown,test}.rs` (`resource.sql`, `resource.run`,
`resource.skip_validation`, YAML exports that are either plain strings or
rename maps, ...).  Query files are a collaborator boundary: a resource
carries its anchor map directly, each anchor with the rendered statement
text and its parsed options. -/

/-- Options attached to a query anchor
(`core/templating.rs::QueryOptions`, with the defaults applied in
`get_queries`: retries 1, retry_delay 0, postdelete_retries 10,
postdelete_retry_delay 5). -/
structure QueryOptions : Type where
  retries : Nat := 1
  retry_delay : Nat := 0
  postdelete_retries : Nat := 10
  postdelete_retry_delay : Nat := 5

/-- A parsed query anchor: the statement text (rendering is a collaborator
boundary, so the rendered form is carried directly) plus options. -/
structure ParsedQuery : Type where
  rendered : String
  options : QueryOptions := {}

/-- A YAML export declaration: either a plain column name or a rename map
(`{source_column: exported_name}`). -/
inductive ExportDecl : Type
  | plain (name : String)
  | rename (pairs : List (String × String))

/-- `serde_yaml::Value::is_mapping` on an export declaration. -/
def ExportDecl.isRename : ExportDecl → Bool
  | ExportDecl.plain _ => false
  | ExportDecl.rename _ => true

/-- A manifest resource as consumed by the command modules. -/
structure Resource : Type where
  name : String
  rtype : String
  sql : Option String := none
  runScript : Option String := none
  exports : List ExportDecl := []
  protectedExports : List String := []
  cond : Option String := none
  skipValidation : Option Bool := none
  queries : List (String × ParsedQuery) := []

/-- A manifest as consumed by the command modules. -/
structure Manifest : Type where
  name : String
  providers : List String := []
  resources : List Resource := []
  stackExports : List String := []

/-- Anchor lookup in a resource's query map. -/
def getQ (r : Resource) (anchor : String) : Option ParsedQuery :=
  (r.queries.find? (fun p => p.1 == anchor)).map (fun p => p.2)

/-- Lift a pure fallible computation into the effect monad. -/
def mOfExcept (e : Except String α) : M α := fun s => (e, s)

/-- `core/config.rs::get_resource_type`: the five valid resource types;
anything else terminates the process. -/
def getResourceType (r : Resource) : Except String String :=
  if r.rtype == "resource" || r.rtype == "query" || r.rtype == "script" ||
      r.rtype == "multi" || r.rtype == "command" then
    Except.ok r.rtype
  else
    Except.error ("Resource type must be resource, script, multi, query, or command, got "
      ++ r.rtype)

/-! ## Condition evaluation (`commands/base.rs::evaluate_simple_condition`) -/

/-- `str::trim_matches(c)`: strip every leading and trailing occurrence of
one character. -/
def stripCharEnds (c : Char) (s : String) : String :=
  let l := s.toList.dropWhile (fun x => x = c)
  String.mk ((l.reverse.dropWhile (fun x => x = c)).reverse)

/-- `trim().trim_matches('\x27').trim_matches('"')` as applied to
condition operands. -/
def stripQuotes (s : String) : String :=
  stripCharEnds '"' (stripCharEnds '\'' (strTrim s))

/-- `str::split_once`: split at the first occurrence of a separator. -/
def splitOnceStr (s sep : String) : Option (String × String) :=
  match strSplitOn s sep with
  | [] => none
  | [_] => none
  | a :: rest => some (a, String.intercalate sep rest)

/-- Parse a `['a', 'b']`-style literal list from a condition. -/
def parseCondList (haystack : String) : Option (List String) :=
  if strStartsWith haystack "[" && strEndsWith haystack "]" then
    some ((strSplitOn (String.mk ((haystack.toList.drop 1).dropLast)) ",").map stripQuotes)
  else none

/-- The `not in` tail of `evaluate_simple_condition` (split out of the
single source function for structural recursion only). -/
def tryNotIn (trimmed : String) : Option Bool :=
  if strContains trimmed " not in " then
    match splitOnceStr trimmed " not in " with
    | some (needle, hay) =>
        match parseCondList (strTrim hay) with
        | some items => some (!(items.contains (stripQuotes needle)))
        | none => none
    | none => none
  else none

/-- `commands/base.rs::evaluate_simple_condition`: boolean literals,
`==` / `!=` on quote-stripped operands, then `in` (falling through to
`not in` only when the `in` list is malformed, exactly as in the source,
where a `not in` condition also contains `" in "` and is therefore
captured by the `in` branch first). -/
def evaluateSimpleCondition (condition : String) : Option Bool :=
  let trimmed := strTrim condition
  if trimmed == "true" || trimmed == "True" then some true
  else if trimmed == "false" || trimmed == "False" then some false
  else
    match splitOnceStr trimmed "==" with
    | some (l, r) => some (stripQuotes l == stripQuotes r)
    | none =>
        match splitOnceStr trimmed "!=" with
        | some (l, r) => some (stripQuotes l != stripQuotes r)
        | none =>
            if strContains trimmed " in " then
              match splitOnceStr trimmed " in " with
              | some (needle, hay) =>
                  match parseCondList (strTrim hay) with
                  | some items => some (items.contains (stripQuotes needle))
                  | none => tryNotIn trimmed
              | none => tryNotIn trimmed
            else tryNotIn trimmed

/-- `CommandRunner::evaluate_condition`: no condition means process; an
unevaluable condition terminates the process.  (The condition text is
carried post-render; rendering is a collaborator boundary.) -/
def evaluateCondition (r : Resource) : M Bool :=
  match r.cond with
  | none => pure true
  | some c =>
      match evaluateSimpleCondition c with
      | some b => pure b
      | none => fatal ("Error evaluating condition for resource " ++ r.name)

/-! ## Export propagation (`commands/base.rs`, `core/utils.rs`) -/

/-- Fold freshly exported key/value pairs into a context
(`core/utils.rs::export_vars`; the protected-name masking affects logging
only, never the stored value). -/
def exportVarsCtx (ctx data : List (String × String)) : List (String × String) :=
  data.foldl (fun c kv => insertKV c kv.1 kv.2) ctx

/-- `export_vars` acting on the global context. -/
def export_vars (data : List (String × String)) : M Unit := fun s =>
  (Except.ok (), { s with ctx := exportVarsCtx s.ctx data })

/-- `CommandRunner::process_export_data`: build the export map from the
single result row, by rename maps when every declaration is a map, by
plain names otherwise. -/
def processExportData (exportRows : List Row) (decls : List ExportDecl) (allDicts : Bool) :
    List (String × String) :=
  let row := exportRows.headD []
  decls.foldl
    (fun acc d =>
      if allDicts then
        match d with
        | ExportDecl.rename pairs =>
            pairs.foldl (fun a kv => insertKV a kv.2 ((Row.find row kv.1).getD "")) acc
        | ExportDecl.plain _ => acc
      else
        match d with
        | ExportDecl.plain n =>
            if n.isEmpty then acc else insertKV acc n ((Row.find row n).getD "")
        | ExportDecl.rename _ => acc)
    []

/-- The `<evaluated>` placeholder map a dry run exports. -/
def dryRunExportData (decls : List ExportDecl) (allDicts : Bool) : List (String × String) :=
  decls.foldl
    (fun acc d =>
      if allDicts then
        match d with
        | ExportDecl.rename pairs =>
            pairs.foldl (fun a kv => insertKV a kv.2 "<evaluated>") acc
        | ExportDecl.plain _ => acc
      else
        match d with
        | ExportDecl.plain n => insertKV acc n "<evaluated>"
        | ExportDecl.rename _ => acc)
    []

/-- `CommandRunner::process_exports`: run the exports query (suppressed)
and fold the single row into the global context; empty results are fatal
unless tolerated, error rows and multi-row results are fatal; a dry run
stores placeholders without dispatching. -/
def processExports (r : Resource) (q : String) (retries delay : Nat)
    (dryRun _showQueries ignoreMissing : Bool) : M Unit :=
  if r.exports.isEmpty then pure ()
  else
    let allDicts := r.exports.all ExportDecl.isRename
    if dryRun then export_vars (dryRunExportData r.exports allDicts)
    else do
      let exports ← run_stackql_query q true retries delay
      if exports.isEmpty then
        if ignoreMissing then pure ()
        else fatal ("Exports query failed for " ++ r.name)
      else if (Row.find (exports.headD []) "_stackql_deploy_error").isSome then
        fatal ("Exports query failed for " ++ r.name)
      else if (Row.find (exports.headD []) "error").isSome then
        fatal ("Exports query failed for " ++ r.name)
      else if exports.length > 1 then
        fatal "Exports should include one row only"
      else export_vars (processExportData exports r.exports allDicts)

/-- `CommandRunner::process_exports_from_result`: fold an already-fetched
proxy result into the global context without dispatching anything. -/
def processExportsFromResult (r : Resource) (result : List Row) : M Unit :=
  if r.exports.isEmpty || result.isEmpty then pure ()
  else if result.length > 1 then fatal "Exports should include one row only"
  else export_vars (processExportData result r.exports (r.exports.all ExportDecl.isRename))

/-! ## Write path (`core/utils.rs::run_stackql_command`) -/

/-- `core/utils.rs::error_detected_in_notice`. -/
def errorDetectedInNotice (msg : String) : Bool :=
  strStartsWith msg "http response status code: 4" ||
  strStartsWith msg "http response status code: 5" ||
  strStartsWith msg "error:" ||
  strStartsWith msg "disparity in fields to insert" ||
  strStartsWith msg "cannot find matching operation"

/-- `\w` character class. -/
def isWordChar (c : Char) : Bool := c.isAlphanum || c = '_'

/-- The `REGISTRY PULL provider::vVersion` rewrite of
`run_stackql_command` (a character-level model of the source regex
`(REGISTRY PULL \w+)(::v[\d\.]+)?` for the command shapes the tool
generates): when a version suffix is present the match is rewritten as
`REGISTRY PULL provider vVersion`, otherwise the command is unchanged. -/
def processRegistryPull (cmd : String) : String :=
  if strStartsWith cmd "REGISTRY PULL " then
    let rest := cmd.toList.drop 14
    let providerChars := rest.takeWhile isWordChar
    if providerChars.isEmpty then cmd
    else
      let after := rest.drop providerChars.length
      if strStartsWith (String.mk after) "::v" then
        let verChars := (after.drop 3).takeWhile (fun c => c.isDigit || c = '.')
        if verChars.isEmpty then cmd
        else "REGISTRY PULL " ++ String.mk providerChars ++ " v" ++ String.mk verChars
      else cmd
  else cmd

/-- Outcome of one attempt of the command retry loop. -/
inductive CmdStep : Type
  | final (out : Except String String)
  | retryE (fatalMsg : String)

/-- One attempt of `run_stackql_command`: transport errors and
error-signature notices retry (or are fatal once the budget is exhausted)
unless `ignore_errors` swallows them. -/
def commandAttempt (cmd : String) (ignoreErrors : Bool) (s : St) : CmdStep × St :=
  match execQ cmd s with
  | (Resp.fail e, s₁) =>
      if ignoreErrors then (CmdStep.final (Except.ok ""), s₁)
      else (CmdStep.retryE ("Exception during stackql command execution: " ++ e), s₁)
  | (Resp.ok (QueryResult.command msg), s₁) => (CmdStep.final (Except.ok msg), s₁)
  | (Resp.ok QueryResult.empty, s₁) => (CmdStep.final (Except.ok ""), s₁)
  | (Resp.ok (QueryResult.data _ _ notices), s₁) =>
      match notices.find? errorDetectedInNotice with
      | some n =>
          if ignoreErrors then (CmdStep.final (Except.ok (String.intercalate "\n" notices)), s₁)
          else (CmdStep.retryE ("Error during stackql command execution: " ++ n), s₁)
      | none => (CmdStep.final (Except.ok (String.intercalate "\n" notices)), s₁)

/-- The retry loop of `run_stackql_command`. -/
def runCommandLoop (cmd : String) (ignoreErrors : Bool) : Nat → M String
  | 0 => fun s =>
      match commandAttempt cmd ignoreErrors s with
      | (CmdStep.final out, s₁) => (out, s₁)
      | (CmdStep.retryE m, s₁) => (Except.error m, s₁)
  | Nat.succ r => fun s =>
      match commandAttempt cmd ignoreErrors s with
      | (CmdStep.final out, s₁) => (out, s₁)
      | (CmdStep.retryE _, s₁) => runCommandLoop cmd ignoreErrors r s₁

/-- `core/utils.rs::run_stackql_command`. -/
def run_stackql_command (cmd : String) (ignoreErrors : Bool) (retries : Nat) (_delay : Nat) :
    M String :=
  runCommandLoop (processRegistryPull cmd) ignoreErrors retries

/-! ## Provider pulling (`core/utils.rs::pull_providers`) -/

/-- `splitn(2, "::")`. -/
def splitProvider (p : String) : String × String :=
  match strSplitOn p "::" with
  | [] => (p, "")
  | [x] => (x, "")
  | x :: rest => (x, String.intercalate "::" rest)

/-- `v.replace(['v', '.'], "")`. -/
def stripVersionChars (v : String) : String :=
  String.mk (v.toList.filter (fun c => !(c = 'v' || c = '.')))

/-- Version-to-number collapse used by `is_version_higher`
(`parse::<u64>().unwrap_or(0)`). -/
def parseVersionNum (v : String) : Nat :=
  let ds := (stripVersionChars v).toList
  if !ds.isEmpty && ds.all Char.isDigit then digitsToNat ds else 0

/-- `core/utils.rs::is_version_higher`. -/
def isVersionHigher (installed requested : String) : Bool :=
  parseVersionNum installed > parseVersionNum requested

/-- Process one provider entry of `pull_providers`. -/
def pullOneProvider (installed : List Row) (p : String) : M Unit :=
  if strContains p "::" then
    let pr := splitProvider p
    let found := installed.any (fun row =>
      ((Row.find row "name").map (fun n => n == pr.1)).getD false &&
      ((Row.find row "version").map (fun v => v == pr.2)).getD false)
    if found then pure ()
    else
      let higher := installed.any (fun row =>
        ((Row.find row "name").map (fun n => n == pr.1)).getD false &&
        ((Row.find row "version").map (fun v => isVersionHigher v pr.2)).getD false)
      if higher then pure ()
      else do
        let _ ← run_stackql_command ("REGISTRY PULL " ++ p) false 0 5
        pure ()
  else
    let found := installed.any (fun row => Row.find row "name" == some p)
    if found then pure ()
    else do
      let _ ← run_stackql_command ("REGISTRY PULL " ++ p) false 0 5
      pure ()

/-- Loop of `pull_providers` over the manifest's provider list. -/
def pullProvidersLoop (installed : List Row) : List String → M Unit
  | [] => pure ()
  | p :: rest => do
      pullOneProvider installed p
      pullProvidersLoop installed rest

/-- `core/utils.rs::pull_providers`: query the installed providers, then
pull every missing one. -/
def pull_providers (providers : List String) : M Unit := do
  let installed ← run_stackql_query "SHOW PROVIDERS" false 0 5
  pullProvidersLoop installed providers

/-! ## CommandRunner check and mutate operations (`commands/base.rs`) -/

/-- `check_exports_as_statecheck_proxy`: a non-empty result whose first
row carries neither error marker counts as a passing state check. -/
def checkExportsAsStatecheckProxy (result : List Row) : Bool :=
  match result with
  | [] => false
  | first :: _ =>
      !(Row.find first "_stackql_deploy_error").isSome &&
      !(Row.find first "error").isSome

/-- `CommandRunner::check_if_resource_exists`: dry run short-circuits to
`false` (so creation is always attempted); otherwise run the probe
through `perform_retries`. -/
def checkIfResourceExists (_r : Resource) (q : String) (retries delay : Nat)
    (dryRun _showQueries deleteTest : Bool) : M Bool :=
  if dryRun then pure false
  else perform_retries q retries delay deleteTest

/-- `CommandRunner::check_if_resource_is_correct_state`: dry run
short-circuits to `true`; otherwise probe through `perform_retries`. -/
def checkIfResourceIsCorrectState (_r : Resource) (q : String) (retries delay : Nat)
    (dryRun _showQueries : Bool) : M Bool :=
  if dryRun then pure true
  else perform_retries q retries delay false

/-- `CommandRunner::check_state_using_exports_proxy`: run the exports
query once (suppressed), returning both the verdict and, on success, the
fetched rows for later reuse. -/
def checkStateUsingExportsProxy (_r : Resource) (q : String) (retries delay : Nat)
    (dryRun _showQueries : Bool) : M (Bool × Option (List Row)) :=
  if dryRun then pure (true, none)
  else do
    let result ← run_stackql_query q true retries delay
    if checkExportsAsStatecheckProxy result then pure (true, some result)
    else pure (false, none)

/-- `CommandRunner::create_resource`: dry run logs and reports no
mutation; otherwise dispatch the create statement. -/
def createResource (_r : Resource) (q : String) (retries delay : Nat)
    (dryRun _showQueries ignoreErrors : Bool) : M Bool :=
  if dryRun then pure false
  else do
    let _ ← run_stackql_command q ignoreErrors retries delay
    pure true

/-- `CommandRunner::update_resource`: absent update anchor is an
informational no-op; dry run reports no mutation. -/
def updateResource (_r : Resource) (q : Option String) (retries delay : Nat)
    (dryRun _showQueries ignoreErrors : Bool) : M Bool :=
  match q with
  | some query =>
      if dryRun then pure false
      else do
        let _ ← run_stackql_command query ignoreErrors retries delay
        pure true
  | none => pure false

/-- `CommandRunner::delete_resource`. -/
def deleteResource (_r : Resource) (q : String) (retries delay : Nat)
    (dryRun _showQueries ignoreErrors : Bool) : M Unit :=
  if dryRun then pure ()
  else do
    let _ ← run_stackql_command q ignoreErrors retries delay
    pure ()

/-- `CommandRunner::run_command` (command-type resources, never
error-tolerant). -/
def runCommandM (q : String) (retries delay : Nat) (dryRun _showQueries : Bool) : M Unit :=
  if dryRun then pure ()
  else do
    let _ ← run_stackql_command q false retries delay
    pure ()

/-- `core/utils.rs::run_ext_script`: the shell is a collaborator boundary
(the `ext` oracle); a failing script or unparseable output is fatal, and
when exports are expected every declared name must be present in the
output map. -/
def runExtScript (_cmd : String) (expected : Option (List String)) : M (Option Row) := fun s =>
  match s.ext with
  | [] => (Except.error "Script failed", s)
  | Except.error m :: rest => (Except.error m, { s with ext := rest })
  | Except.ok vars :: rest =>
      match expected with
      | some exps =>
          match exps.find? (fun e => !(Row.find vars e).isSome) with
          | some e =>
              (Except.error ("Exported variable " ++ e ++ " not found in script output"),
                { s with ext := rest })
          | none => (Except.ok (some vars), { s with ext := rest })
      | none => (Except.ok none, { s with ext := rest })

/-- `CommandRunner::process_script_resource`: render and run the shell
template (dry run logs only); plain-name exports are required in the
script output and merged into the global context. -/
def processScriptResource (r : Resource) (dryRun : Bool) : M Unit :=
  match r.runScript with
  | none => fatal "Script resource must include run key"
  | some script =>
      if dryRun then pure ()
      else do
        let exportNames := r.exports.filterMap (fun e =>
          match e with
          | ExportDecl.plain n => some n
          | ExportDecl.rename _ => none)
        let retVars ← runExtScript script
          (if exportNames.isEmpty then none else some exportNames)
        match retVars with
        | some vars =>
            if !r.exports.isEmpty then export_vars vars else pure ()
        | none => pure ()

/-- `CommandRunner::process_stack_exports`: without an output file (or in
dry run) nothing is checked; otherwise every declared stack export other
than `stack_name`/`stack_env` must be present in the global context
(the JSON file write itself is a filesystem boundary). -/
def processStackExports (m : Manifest) (dryRun : Bool) (outputFile : Option String) :
    M Unit := fun s =>
  match outputFile with
  | none => (Except.ok (), s)
  | some _ =>
      if dryRun then (Except.ok (), s)
      else
        let missing := m.stackExports.filter (fun v =>
          v != "stack_name" && v != "stack_env" && !(lookupCtx s.ctx v).isSome)
        if missing.isEmpty then (Except.ok (), s)
        else (Except.error "Exports failed: variables not found in context", s)

/-! ## The build command (`commands/build.rs::run_build`) -/

/-- The existence/state determination, mutation and post-deploy check for
`resource`/`multi` types (`run_build` lines 215–406), returning the
retained proxy rows (`exports_result_from_proxy`). -/
def buildStateMachine (r : Resource) (resType : String) (dryRun showQueries : Bool)
    (hasCou : Bool) (createQuery : Option (String × Nat × Nat))
    (updateQuery : Option (String × Nat × Nat))
    (existsQ statecheckQ : Option ParsedQuery) (exportsQStr : Option String)
    (exportsRetries exportsDelay : Nat) : M (Option (List Row)) := do
  let ignoreErrors := resType == "multi"
  let init ←
    (if hasCou then
      -- CreateOrUpdate strategy: skip all existence and state checks
      pure (false, false, (none : Option (List Row)))
    else
      match statecheckQ with
      | some sq => do
          -- Flow 1: traditional flow when statecheck exists
          let pre ←
            (match existsQ with
            | some eq => do
                let re ← checkIfResourceExists r eq.rendered eq.options.retries
                  eq.options.retry_delay dryRun showQueries false
                pure (re, false)
            | none => do
                let ic ← checkIfResourceIsCorrectState r sq.rendered sq.options.retries
                  sq.options.retry_delay dryRun showQueries
                pure (ic, ic))
          let ic2 ←
            (if pre.1 && !pre.2 then
              if r.skipValidation.getD false then pure true
              else checkIfResourceIsCorrectState r sq.rendered sq.options.retries
                sq.options.retry_delay dryRun showQueries
            else pure pre.2)
          pure (pre.1, ic2, (none : Option (List Row)))
      | none =>
          match exportsQStr with
          | some eqs => do
              -- Flow 2: optimized flow using exports as proxy
              let proxy ← checkStateUsingExportsProxy r eqs 1 0 dryRun showQueries
              if proxy.1 then pure (true, true, proxy.2)
              else
                match existsQ with
                | some eq => do
                    let re ← checkIfResourceExists r eq.rendered eq.options.retries
                      eq.options.retry_delay dryRun showQueries false
                    pure (re, false, (none : Option (List Row)))
                | none => pure (false, false, (none : Option (List Row)))
          | none =>
              match existsQ with
              | some eq => do
                  -- Flow 3: basic flow with only exists query
                  let re ← checkIfResourceExists r eq.rendered eq.options.retries
                    eq.options.retry_delay dryRun showQueries false
                  pure (re, false, (none : Option (List Row)))
              | none =>
                  fatal "iql file must include either exists, statecheck, or exports anchor.")
  let resourceExists := init.1
  let isCorrectState := init.2.1
  let proxy0 := init.2.2
  let icu ←
    (if !resourceExists then
      match createQuery with
      | some cq => createResource r cq.1 cq.2.1 cq.2.2 dryRun showQueries ignoreErrors
      | none => fatal "create query missing"
    else pure false)
  let icu2 ←
    (if resourceExists && !isCorrectState then
      updateResource r (updateQuery.map (fun u => u.1))
        ((updateQuery.map (fun u => u.2.1)).getD 1)
        ((updateQuery.map (fun u => u.2.2)).getD 0) dryRun showQueries ignoreErrors
    else pure icu)
  let post ←
    (if icu2 then
      match statecheckQ with
      | some sq => do
          let ic ← checkIfResourceIsCorrectState r sq.rendered sq.options.retries
            sq.options.retry_delay dryRun showQueries
          pure (ic, proxy0)
      | none =>
          match exportsQStr with
          | some eqs => do
              -- (statecheckQ is none on this branch; the source still
              -- consults it for the post-deploy budget, mirrored here)
              let postRetries :=
                match statecheckQ with
                | some sq => if sq.options.retries > 1 then sq.options.retries else exportsRetries
                | none => exportsRetries
              let postDelay :=
                match statecheckQ with
                | some sq => if sq.options.retries > 1 then sq.options.retry_delay else exportsDelay
                | none => exportsDelay
              let proxy ← checkStateUsingExportsProxy r eqs postRetries postDelay
                dryRun showQueries
              pure (proxy.1, if proxy.2.isSome then proxy.2 else proxy0)
          | none => pure (isCorrectState, proxy0)
    else pure (isCorrectState, proxy0))
  if !post.1 && !dryRun then
    fatal ("deployment failed for " ++ r.name ++ " after post-deploy checks.")
  else pure post.2

/-- One iteration of the `run_build` resource loop. -/
def buildResource (dryRun showQueries : Bool) (r : Resource) : M Unit := do
  let resType ← mOfExcept (getResourceType r)
  let condOk ← evaluateCondition r
  if !condOk then pure ()
  else if resType == "script" then processScriptResource r dryRun
  else do
    let inlineQuery : Option String :=
      match r.sql with
      | some sqlv => if resType == "command" || resType == "query" then some sqlv else none
      | none => none
    let queries : List (String × ParsedQuery) := if inlineQuery.isSome then [] else r.queries
    let getA := fun (a : String) => ((queries.find? (fun p => p.1 == a)).map (fun p => p.2))
    let cou := getA "createorupdate"
    let hasCou := cou.isSome
    let createQuery : Option (String × Nat × Nat) :=
      match cou with
      | some pq => some (pq.rendered, pq.options.retries, pq.options.retry_delay)
      | none => (getA "create").map (fun pq =>
          (pq.rendered, pq.options.retries, pq.options.retry_delay))
    let updateQuery : Option (String × Nat × Nat) :=
      match cou with
      | some pq => some (pq.rendered, pq.options.retries, pq.options.retry_delay)
      | none => (getA "update").map (fun pq =>
          (pq.rendered, pq.options.retries, pq.options.retry_delay))
    if (resType == "resource" || resType == "multi") && !createQuery.isSome then
      fatal "iql file must include either create or createorupdate anchor."
    else do
      let existsQ := getA "exists"
      let statecheckQ := getA "statecheck"
      let exportsOpt := getA "exports"
      let exportsRetries := (exportsOpt.map (fun pq => pq.options.retries)).getD 1
      let exportsDelay := (exportsOpt.map (fun pq => pq.options.retry_delay)).getD 0
      let exportsQStr ←
        (if resType == "query" && !(exportsOpt.map (fun pq => pq.rendered)).isSome then
          match inlineQuery with
          | some iq => pure (some iq)
          | none => fatal "Inline sql must be supplied or an iql file must be present with an exports anchor for query type resources."
        else pure (exportsOpt.map (fun pq => pq.rendered)))
      let proxyResult ←
        (if resType == "resource" || resType == "multi" then
          buildStateMachine r resType dryRun showQueries hasCou createQuery updateQuery
            existsQ statecheckQ exportsQStr exportsRetries exportsDelay
        else pure none)
      let _ ←
        (if resType == "command" then do
          let cmd ←
            (match inlineQuery with
            | some iq => pure (iq, 1, 0)
            | none =>
                match getA "command" with
                | some pq => pure (pq.rendered, pq.options.retries, pq.options.retry_delay)
                | none => fatal "sql should be defined in the resource or the command anchor needs to be supplied in the corresponding iql file for command type resources.")
          runCommandM cmd.1 cmd.2.1 cmd.2.2 dryRun showQueries
        else pure ())
      match exportsQStr with
      | some eqs =>
          (match proxyResult with
          | some proxyRows =>
              if resType == "resource" || resType == "multi" then
                if !r.exports.isEmpty then processExportsFromResult r proxyRows
                else pure ()
              else pure ()
          | none =>
              processExports r eqs exportsRetries exportsDelay dryRun showQueries false)
      | none => pure ()

/-- The `run_build` loop over the manifest's resources, in declaration
order. -/
def buildResources (dryRun showQueries : Bool) : List Resource → M Unit
  | [] => pure ()
  | r :: rest => do
      buildResource dryRun showQueries r
      buildResources dryRun showQueries rest

/-- `commands/build.rs::run_build`. -/
def runBuild (m : Manifest) (dryRun showQueries : Bool) (outputFile : Option String) :
    M Unit := do
  buildResources dryRun showQueries m.resources
  processStackExports m dryRun outputFile

/-- The setup phase of `CommandRunner::new` as observable on the engine:
providers are pulled unconditionally before any command runs (manifest
loading, env loading and global rendering are collaborator boundaries). -/
def commandRunnerNew (m : Manifest) : M Unit :=
  pull_providers m.providers

/-- The `build` command end to end: runner construction (which pulls
providers) followed by `run_build`. -/
def buildCommand (m : Manifest) (dryRun showQueries : Bool) (outputFile : Option String) :
    M Unit := do
  commandRunnerNew m
  runBuild m dryRun showQueries outputFile

/-! ## The teardown command (`commands/teardown.rs`) -/

/-- One iteration of `collect_exports`: `command` types are skipped, an
inline statement serves for `query` types, otherwise the `exports` anchor
(missing anchor: nothing to do); missing exports are tolerated. -/
def collectResource (dryRun showQueries : Bool) (r : Resource) : M Unit := do
  let resType ← mOfExcept (getResourceType r)
  if resType == "command" then pure ()
  else
    let eqInfo : Option (String × Nat × Nat) :=
      match r.sql with
      | some sqlv =>
          if resType == "query" then some (sqlv, 1, 0)
          else (getQ r "exports").map (fun pq =>
            (pq.rendered, pq.options.retries, pq.options.retry_delay))
      | none => (getQ r "exports").map (fun pq =>
          (pq.rendered, pq.options.retries, pq.options.retry_delay))
    match eqInfo with
    | some eqi => processExports r eqi.1 eqi.2.1 eqi.2.2 dryRun showQueries true
    | none => pure ()

/-- `teardown.rs::collect_exports` over the manifest's resources in
forward declaration order. -/
def collectExportsAll (dryRun showQueries : Bool) : List Resource → M Unit
  | [] => pure ()
  | r :: rest => do
      collectResource dryRun showQueries r
      collectExportsAll dryRun showQueries rest

/-- One iteration of the `run_teardown` reverse loop: only
`resource`/`multi` types are de-provisioned; the existence probe prefers
`exists` and falls back to `statecheck`; a missing `delete` anchor skips
the resource; `multi` skips the pre-delete check; after a dispatched
delete the existence is re-probed with the postdelete budget and a
still-existing resource is fatal for a non-dry run.  (The reverse
export-map injection into the render context affects template rendering
only, a collaborator boundary.) -/
def teardownResource (dryRun showQueries : Bool) (r : Resource) : M Unit := do
  let resType ← mOfExcept (getResourceType r)
  if resType != "resource" && resType != "multi" then pure ()
  else do
    let condOk ← evaluateCondition r
    if !condOk then pure ()
    else
      let existsInfo : Option (String × Nat × Nat × Nat × Nat) :=
        match getQ r "exists" with
        | some eq => some (eq.rendered, eq.options.retries, eq.options.retry_delay,
            eq.options.postdelete_retries, eq.options.postdelete_retry_delay)
        | none =>
            (getQ r "statecheck").map (fun sq =>
              (sq.rendered, sq.options.retries, sq.options.retry_delay,
                sq.options.postdelete_retries, sq.options.postdelete_retry_delay))
      match existsInfo with
      | none => pure ()
      | some ei =>
          match getQ r "delete" with
          | none => pure ()
          | some dq => do
              let ignoreErrors := resType == "multi"
              let resourceExists ←
                (if resType == "multi" then pure true
                else checkIfResourceExists r ei.1 ei.2.1 ei.2.2.1 dryRun showQueries false)
              if !resourceExists then pure ()
              else do
                deleteResource r dq.rendered dq.options.retries dq.options.retry_delay
                  dryRun showQueries ignoreErrors
                let resourceDeleted ← checkIfResourceExists r ei.1 ei.2.2.2.1 ei.2.2.2.2
                  dryRun showQueries true
                if resourceDeleted then pure ()
                else if !dryRun then fatal ("failed to delete " ++ r.name ++ ".")
                else pure ()

/-- The `run_teardown` loop (applied to the reversed resource list). -/
def teardownResources (dryRun showQueries : Bool) : List Resource → M Unit
  | [] => pure ()
  | r :: rest => do
      teardownResource dryRun showQueries r
      teardownResources dryRun showQueries rest

/-- `commands/teardown.rs::run_teardown`: collect exports for every
resource in forward manifest order, then de-provision in reverse manifest
order. -/
def runTeardown (m : Manifest) (dryRun showQueries : Bool) : M Unit := do
  collectExportsAll dryRun showQueries m.resources
  teardownResources dryRun showQueries m.resources.reverse

/-! ## The test command (`commands/test.rs::run_test`) -/

/-- One iteration of the test-command resource loop: `command` types are
skipped, `query`/`resource`/`multi` are validated, and any other
(valid) type — notably `script` — is fatal as an unknown resource type;
the state determination mirrors the reconciler without its upsert arm and
without any mutation, and a wrong state is fatal for a non-dry run. -/
def testResource (dryRun showQueries : Bool) (r : Resource) : M Unit := do
  let resType ← mOfExcept (getResourceType r)
  if resType == "query" || resType == "resource" || resType == "multi" then do
    let inlineQuery : Option String :=
      match r.sql with
      | some sqlv => if resType == "query" then some sqlv else none
      | none => none
    let queries : List (String × ParsedQuery) := if inlineQuery.isSome then [] else r.queries
    let getA := fun (a : String) => ((queries.find? (fun p => p.1 == a)).map (fun p => p.2))
    let statecheckQ := getA "statecheck"
    let statecheckRetries := (statecheckQ.map (fun pq => pq.options.retries)).getD 1
    let statecheckDelay := (statecheckQ.map (fun pq => pq.options.retry_delay)).getD 0
    let exportsOpt := getA "exports"
    let exportsRetries := (exportsOpt.map (fun pq => pq.options.retries)).getD 1
    let exportsDelay := (exportsOpt.map (fun pq => pq.options.retry_delay)).getD 0
    let exportsQStr ←
      (if resType == "query" && !(exportsOpt.map (fun pq => pq.rendered)).isSome then
        match inlineQuery with
        | some iq => pure (some iq)
        | none => fatal "Inline sql must be supplied or an iql file must be present with an exports anchor for query type resources."
      else pure (exportsOpt.map (fun pq => pq.rendered)))
    let proxyResult ←
      (if resType == "resource" || resType == "multi" then do
        let icp ←
          (if r.skipValidation.getD false then pure (true, (none : Option (List Row)))
          else
            match statecheckQ with
            | some sq => do
                let ic ← checkIfResourceIsCorrectState r sq.rendered sq.options.retries
                  sq.options.retry_delay dryRun showQueries
                pure (ic, (none : Option (List Row)))
            | none =>
                match exportsQStr with
                | some eqs =>
                    checkStateUsingExportsProxy r eqs statecheckRetries statecheckDelay
                      dryRun showQueries
                | none =>
                    fatal "iql file must include either statecheck or exports anchor for validation.")
        if !icp.1 && !dryRun then fatal ("test failed for " ++ r.name ++ ".")
        else pure icp.2
      else pure none)
    match exportsQStr with
    | some eqs =>
        (match proxyResult with
        | some proxyRows =>
            if resType == "resource" || resType == "multi" then
              if !r.exports.isEmpty then processExportsFromResult r proxyRows
              else pure ()
            else pure ()
        | none =>
            processExports r eqs exportsRetries exportsDelay dryRun showQueries false)
    | none => pure ()
  else if resType == "command" then pure ()
  else fatal ("unknown resource type: " ++ resType)

/-- The test-command loop over the manifest's resources. -/
def testResources (dryRun showQueries : Bool) : List Resource → M Unit
  | [] => pure ()
  | r :: rest => do
      testResource dryRun showQueries r
      testResources dryRun showQueries rest

/-! ## Concrete scenario fixtures -/

/-- Concrete resource `a` of the C4 three-resource teardown scenario. -/
def c4resA : Resource :=
  { name := "a", rtype := "resource", exports := [ExportDecl.plain "ka"],
    queries := [("exports", { rendered := "EXA" }),
      ("exists", { rendered := "EA", options := { postdelete_retries := 1 } }),
      ("delete", { rendered := "DA" })] }

/-- Concrete resource `b` of the C4 three-resource teardown scenario. -/
def c4resB : Resource :=
  { name := "b", rtype := "resource", exports := [ExportDecl.plain "kb"],
    queries := [("exports", { rendered := "EXB" }),
      ("exists", { rendered := "EB", options := { postdelete_retries := 1 } }),
      ("delete", { rendered := "DB" })] }

/-- Concrete resource `c` of the C4 three-resource teardown scenario. -/
def c4resC : Resource :=
  { name := "c", rtype := "resource", exports := [ExportDecl.plain "kc"],
    queries := [("exports", { rendered := "EXC" }),
      ("exists", { rendered := "EC", options := { postdelete_retries := 1 } }),
      ("delete", { rendered := "DC" })] }

/-- Machine state of the C4 scenario after 0 dispatches. -/
def c4st0 : St :=
  { script :=
      [Resp.ok (QueryResult.data ["ka"] [["va"]] []),
      Resp.ok (QueryResult.data ["kb"] [["vb"]] []),
      Resp.ok (QueryResult.data ["kc"] [["vc"]] []),
      Resp.ok (QueryResult.data ["count"] [["1"]] []),
      Resp.ok (QueryResult.command "deleted c"),
      Resp.ok (QueryResult.data ["count"] [["0"]] []),
      Resp.ok (QueryResult.data ["count"] [["1"]] []),
      Resp.ok (QueryResult.command "deleted b"),
      Resp.ok (QueryResult.data ["count"] [["0"]] []),
      Resp.ok (QueryResult.data ["count"] [["1"]] []),
      Resp.ok (QueryResult.command "deleted a"),
      Resp.ok (QueryResult.data ["count"] [["0"]] [])],
    trace := [], ctx := [], ext := [] }

/-- Machine state of the C4 scenario after 1 dispatches. -/
def c4st1 : St :=
  { script :=
      [Resp.ok (QueryResult.data ["kb"] [["vb"]] []),
      Resp.ok (QueryResult.data ["kc"] [["vc"]] []),
      Resp.ok (QueryResult.data ["count"] [["1"]] []),
      Resp.ok (QueryResult.command "deleted c"),
      Resp.ok (QueryResult.data ["count"] [["0"]] []),
      Resp.ok (QueryResult.data ["count"] [["1"]] []),
      Resp.ok (QueryResult.command "deleted b"),
      Resp.ok (QueryResult.data ["count"] [["0"]] []),
      Resp.ok (QueryResult.data ["count"] [["1"]] []),
      Resp.ok (QueryResult.command "deleted a"),
      Resp.ok (QueryResult.data ["count"] [["0"]] [])],
    trace := ["EXA"], ctx := [("ka", "va")], ext := [] }

/-- Machine state of the C4 scenario after 2 dispatches. -/
def c4st2 : St :=
  { script :=
      [Resp.ok (QueryResult.data ["kc"] [["vc"]] []),
      Resp.ok (QueryResult.data ["count"] [["1"]] []),
      Resp.ok (QueryResult.command "deleted c"),
      Resp.ok (QueryResult.data ["count"] [["0"]] []),
      Resp.ok (QueryResult.data ["count"] [["1"]] []),
      Resp.ok (QueryResult.command "deleted b"),
      Resp.ok (QueryResult.data ["count"] [["0"]] []),
      Resp.ok (QueryResult.data ["count"] [["1"]] []),
      Resp.ok (QueryResult.command "deleted a"),
      Resp.ok (QueryResult.data ["count"] [["0"]] [])],
    trace := ["EXA", "EXB"], ctx := [("ka", "va"), ("kb", "vb")], ext := [] }

/-- Machine state of the C4 scenario after 3 dispatches. -/
def c4st3 : St :=
  { script :=
      [Resp.ok (QueryResult.data ["count"] [["1"]] []),
      Resp.ok (QueryResult.command "deleted c"),
      Resp.ok (QueryResult.data ["count"] [["0"]] []),
      Resp.ok (QueryResult.data ["count"] [["1"]] []),
      Resp.ok (QueryResult.command "deleted b"),
      Resp.ok (QueryResult.data ["count"] [["0"]] []),
      Resp.ok (QueryResult.data ["count"] [["1"]] []),
      Resp.ok (QueryResult.command "deleted a"),
      Resp.ok (QueryResult.data ["count"] [["0"]] [])],
    trace := ["EXA", "EXB", "EXC"], ctx := [("ka", "va"), ("kb", "vb"), ("kc", "vc")], ext := [] }

/-- Machine state of the C4 scenario after 6 dispatches. -/
def c4st6 : St :=
  { script :=
      [Resp.ok (QueryResult.data ["count"] [["1"]] []),
      Resp.ok (QueryResult.command "deleted b"),
      Resp.ok (QueryResult.data ["count"] [["0"]] []),
      Resp.ok (QueryResult.data ["count"] [["1"]] []),
      Resp.ok (QueryResult.command "deleted a"),
      Resp.ok (QueryResult.data ["count"] [["0"]] [])],
    trace := ["EXA", "EXB", "EXC", "EC", "DC", "EC"], ctx := [("ka", "va"), ("kb", "vb"), ("kc", "vc")], ext := [] }

/-- Machine state of the C4 scenario after 9 dispatches. -/
def c4st9 : St :=
  { script :=
      [Resp.ok (QueryResult.data ["count"] [["1"]] []),
      Resp.ok (QueryResult.command "deleted a"),
      Resp.ok (QueryResult.data ["count"] [["0"]] [])],
    trace := ["EXA", "EXB", "EXC", "EC", "DC", "EC", "EB", "DB", "EB"], ctx := [("ka", "va"), ("kb", "vb"), ("kc", "vc")], ext := [] }

/-- Machine state of the C4 scenario after 12 dispatches. -/
def c4st12 : St :=
  { script :=
      [],
    trace := ["EXA", "EXB", "EXC", "EC", "DC", "EC", "EB", "DB", "EB", "EA", "DA", "EA"], ctx := [("ka", "va"), ("kb", "vb"), ("kc", "vc")], ext := [] }

/-- The C4 three-resource manifest. -/
def c4manifest : Manifest :=
  { name := "stk", providers := [], resources := [c4resA, c4resB, c4resC],
    stackExports := [] }

/-- A resource carrying a createorupdate anchor alongside a statecheck
anchor (the C1 scenario shape). -/
def c1res (nm : String) (cou sc : ParsedQuery) : Resource :=
  { name := nm, rtype := "resource",
    queries := [("createorupdate", cou), ("statecheck", sc)] }

/-- An exports-proxy resource: a create anchor and an exports anchor, no
statecheck and no exists anchor (the C2 scenario shape). -/
def c2res (nm : String) (cq eq : ParsedQuery) (eds : List ExportDecl) : Resource :=
  { name := nm, rtype := "resource", exports := eds,
    queries := [("create", cq), ("exports", eq)] }

/-- A multi-type resource with exists and delete anchors (the C5 scenario
shape). -/
def c5res (nm : String) (epq dpq : ParsedQuery) : Resource :=
  { name := nm, rtype := "multi",
    queries := [("exists", epq), ("delete", dpq)] }

/-! ## State-shape lemmas for the retry executor -/

theorem bind_run (x : M α) (f : α → M β) (s : St) :
    (x >>= f) s = match x s with
      | (Except.ok a, s₁) => f a s₁
      | (Except.error e, s₁) => (Except.error e, s₁) := rfl

theorem pure_run (a : α) (s : St) :
    (pure a : M α) s = (Except.ok a, s) := rfl


theorem execQ_snd (q : String) (s : St) :
    (execQ q s).2 = { s with script := s.script.tail, trace := s.trace ++ [q] } := by
  rcases s with ⟨sc, tr, cx, ex⟩
  cases sc <;> rfl

theorem queryAttemptLast_snd (q : String) (sup : Bool) (s : St) :
    (queryAttemptLast q sup s).2 = (execQ q s).2 := by
  unfold queryAttemptLast
  rcases hq : execQ q s with ⟨resp, s₁⟩
  rcases resp with r | e
  · rcases r with ⟨cols, rows, notices⟩ | msg | _ <;> simp only [hq] <;>
      (repeat' split) <;> rfl
  · simp only [hq]
    split <;> rfl

theorem queryAttemptStep_snd (q : String) (s : St) :
    (queryAttemptStep q s).2 = (execQ q s).2 := by
  unfold queryAttemptStep
  rcases hq : execQ q s with ⟨resp, s₁⟩
  rcases resp with r | e
  · rcases r with ⟨cols, rows, notices⟩ | msg | _ <;> simp only [hq] <;>
      (repeat' split) <;> rfl
  · simp only [hq]

theorem run_test_snd (q : String) (dt : Bool) (s : St) :
    (run_test q dt s).2 = { s with script := s.script.tail, trace := s.trace ++ [q] } := by
  have h2 : (run_stackql_query q true 0 5 s).2 = (execQ q s).2 :=
    queryAttemptLast_snd q true s
  show ((run_stackql_query q true 0 5 >>= fun result => pure (runTestClassify result dt)) s).2 =
    _
  rw [bind_run]
  rcases hr : run_stackql_query q true 0 5 s with ⟨res, s₁⟩
  rw [hr, execQ_snd] at h2
  rcases res with e | a
  · exact h2
  · exact h2

/-- `drop` after `tail` is a one-deeper `drop`. -/
theorem drop_tail_comm (l : List α) (k : Nat) : l.tail.drop k = l.drop (k + 1) := by
  cases l <;> simp

/-- `tail` is `drop 1`. -/
theorem tail_eq_drop_one (l : List α) : l.tail = l.drop 1 := by
  cases l <;> rfl

/-- Shape of the state left by `perform_retries`: some number `k ≤ retries`
of probe dispatches, each consuming one scripted response and appending
one copy of the probe statement to the trace; context and script-output
oracle are untouched. -/
theorem perform_retries_state (q : String) (d : Nat) (dt : Bool) :
    ∀ (retries : Nat) (s : St), ∃ k ≤ retries,
      (perform_retries q retries d dt s).2 =
        { s with script := s.script.drop k, trace := s.trace ++ List.replicate k q } := by
  intro retries
  induction retries with
  | zero =>
      intro s
      refine ⟨0, Nat.le_refl 0, ?_⟩
      show ((pure false : M Bool) s).2 = _
      rw [pure_run]
      simp
  | succ r ih =>
      intro s
      show ∃ k ≤ r + 1,
        ((run_test q dt >>= fun ok =>
          if ok then pure true else perform_retries q r d dt) s).2 = _
      rw [bind_run]
      rcases hr : run_test q dt s with ⟨res, s₁⟩
      have hs₁ : s₁ = { s with script := s.script.tail, trace := s.trace ++ [q] } := by
        have h2 := run_test_snd q dt s
        rw [hr] at h2
        exact h2
      rcases res with e | ok
      · refine ⟨1, by omega, ?_⟩
        show s₁ = _
        rw [hs₁, tail_eq_drop_one, List.replicate_one]
      · cases ok
        · rcases ih s₁ with ⟨k, hk, hks⟩
          refine ⟨k + 1, by omega, ?_⟩
          show ((perform_retries q r d dt) s₁).2 = _
          rw [hks, hs₁]
          dsimp only
          rw [drop_tail_comm, List.append_assoc]
          rfl
        · refine ⟨1, by omega, ?_⟩
          show ((pure true : M Bool) s₁).2 = _
          rw [pure_run]
          show s₁ = _
          rw [hs₁, tail_eq_drop_one, List.replicate_one]

/-! ## Claim theorems: retry executor -/

/-- C8: every existence or state check routed through `perform_retries`
executes the probe at most `retries` times (not `retries + 1`): the trace
grows by at most `retries` dispatches, a zero budget returns `false`
without dispatching anything, and the non-dry-run existence check of
`commands/base.rs` is exactly this loop. -/
theorem claim_C8_perform_retries_budget :
    (∀ (q : String) (retries delay : Nat) (dt : Bool) (s : St),
      ((perform_retries q retries delay dt) s).2.trace.length ≤ s.trace.length + retries) ∧
    (∀ (q : String) (delay : Nat) (dt : Bool) (s : St),
      perform_retries q 0 delay dt s = (Except.ok false, s)) ∧
    (∀ (r : Resource) (q : String) (retries delay : Nat) (sq dt : Bool),
      checkIfResourceExists r q retries delay false sq dt = perform_retries q retries delay dt) := by
  refine ⟨?_, ?_, ?_⟩
  · intro q retries delay dt s
    rcases perform_retries_state q delay dt retries s with ⟨k, hk, hks⟩
    rw [hks]
    simp only [List.length_append, List.length_replicate]
    omega
  · intro q delay dt s
    rfl
  · intro r q retries delay sq dt
    rfl

/-- C9: in the classification of `core/utils.rs::run_test`, an empty probe
result or a first row carrying an `error` or `_stackql_deploy_error`
field reports `true` (successful deletion) for a post-delete check and
`false` (not existing) for a normal existence check. -/
theorem claim_C9_run_test_delete_classification :
    ∀ (result : List Row),
      (result = [] ∨ (Row.find (result.headD []) "error").isSome = true ∨
        (Row.find (result.headD []) "_stackql_deploy_error").isSome = true) →
      runTestClassify result true = true ∧ runTestClassify result false = false := by
  intro result h
  rcases result with _ | ⟨hd, tl⟩
  · constructor <;> rfl
  · rcases h with h | h | h
    · exact absurd h (by simp)
    · simp only [List.headD_cons] at h
      constructor <;> simp [runTestClassify, h]
    · simp only [List.headD_cons] at h
      constructor <;> simp [runTestClassify, h]

/-- Witness for C9 at a concrete error row. -/
theorem claim_C9_witness :
    runTestClassify [[("error", "boom")]] true = true ∧
    runTestClassify [[("error", "boom")]] false = false :=
  claim_C9_run_test_delete_classification [[("error", "boom")]]
    (Or.inr (Or.inl (by decide)))

/-- C3 (amended): whenever the first row produced by an attempt of
`run_stackql_query` carries no `error` field and a `count` field parsing
to an integer above 1, the process terminates fatally after that single
dispatch — for every retry budget and both suppression modes, so the
probe is never retried. -/
theorem claim_C3_count_invariant_fatal
    (suppress : Bool) (retries delay : Nat) (q : String) (cols r₀ : List String)
    (rtl : List (List String)) (notices : List String) (rest : List Resp) (s : St)
    (cs : String) (c : Int)
    (hscript : s.script = Resp.ok (QueryResult.data cols (r₀ :: rtl) notices) :: rest)
    (herr : Row.find (rowOf cols r₀) "error" = none)
    (hcount : Row.find (rowOf cols r₀) "count" = some cs)
    (hparse : parseI64 cs = some c) (hc : c > 1) :
    ∃ m, run_stackql_query q suppress retries delay s =
      (Except.error m, { s with script := rest, trace := s.trace ++ [q] }) := by
  have hexec : execQ q s =
      (Resp.ok (QueryResult.data cols (r₀ :: rtl) notices),
        { s with script := rest, trace := s.trace ++ [q] }) := by
    unfold execQ
    rw [hscript]
  have hmaps : Row.find (((r₀ :: rtl).map (rowOf cols)).headD []) "error" = none := by
    simpa using herr
  have hmapsc : Row.find (((r₀ :: rtl).map (rowOf cols)).headD []) "count" = some cs := by
    simpa using hcount
  have hcc : countCheck ((r₀ :: rtl).map (rowOf cols)) =
      Except.error "Detected more than one resource matching query criteria, expected 0 or 1" := by
    unfold countCheck
    rw [hmapsc]
    dsimp only
    rw [hparse]
    dsimp only
    rw [if_pos hc]
  have hdt : queryAttemptLast.queryDataTail cols (r₀ :: rtl) suppress =
      Except.error "Detected more than one resource matching query criteria, expected 0 or 1" := by
    unfold queryAttemptLast.queryDataTail
    simp only [List.isEmpty_cons, Bool.false_eq_true, if_false, hmaps, hcc]
  cases retries with
  | zero =>
      show ∃ m, queryAttemptLast q suppress s = _
      unfold queryAttemptLast
      rw [hexec]
      dsimp only
      rcases hn : notices.find? noticeIsError with _ | n
      · dsimp only
        rw [hdt]
        exact ⟨_, rfl⟩
      · dsimp only
        cases suppress with
        | true =>
            rw [if_pos rfl, hdt]
            exact ⟨_, rfl⟩
        | false =>
            rw [if_neg (by simp)]
            exact ⟨_, rfl⟩
  | succ r =>
      show ∃ m, (match queryAttemptStep q s with
        | (StepOut.final out, s₁) => (out, s₁)
        | (StepOut.retry _, s₁) => runQueryLoop q suppress r s₁) = _
      have hstep : queryAttemptStep q s =
          (StepOut.final (countCheck ((r₀ :: rtl).map (rowOf cols))),
            { s with script := rest, trace := s.trace ++ [q] }) := by
        unfold queryAttemptStep
        rw [hexec]
        simp only [List.isEmpty_cons, Bool.false_eq_true, if_false, hmaps]
      rw [hstep, hcc]
      exact ⟨_, rfl⟩

/-- Witness for C3 (amended) at a concrete `count = "2"` row with five
retries configured and suppression enabled. -/
theorem claim_C3_witness :
    ∃ m, run_stackql_query "Q" true 5 0
      { script := [Resp.ok (QueryResult.data ["count"] [["2"]] [])],
        trace := [], ctx := [], ext := [] } =
      (Except.error m,
        { script := [], trace := ["Q"], ctx := [], ext := [] }) :=
  claim_C3_count_invariant_fatal true 5 0 "Q" ["count"] ["2"] [] [] []
    { script := [Resp.ok (QueryResult.data ["count"] [["2"]] [])],
      trace := [], ctx := [], ext := [] }
    "2" 2 rfl (by decide) (by decide) (by decide) (by decide)

/-- C3 counterexample: the claim as stated fails when the first returned
row carries an `error` field besides the offending `count` field — the
error branch is checked first and the probe is retried instead of
terminating fatally.  Here the first attempt returns
`[("error", "boom"), ("count", "2")]`, the call is retried, the second
attempt returns a clean `count = 1` row, and the whole call succeeds
(two dispatches in the trace, no fatal exit). -/
theorem claim_C3_counterexample :
    run_stackql_query "Q" false 1 0
      { script := [Resp.ok (QueryResult.data ["error", "count"] [["boom", "2"]] []),
          Resp.ok (QueryResult.data ["count"] [["1"]] [])],
        trace := [], ctx := [], ext := [] } =
      (Except.ok [[("count", "1")]],
        { script := [], trace := ["Q", "Q"], ctx := [], ext := [] }) := rfl

theorem bind_step (x : M α) (f : α → M β) (s : St) (a : α) (s₁ : St)
    (h : x s = (Except.ok a, s₁)) : (x >>= f) s = f a s₁ := by
  rw [bind_run, h]

theorem bind_fatal (x : M α) (f : α → M β) (s : St) (m : String) (s₁ : St)
    (h : x s = (Except.error m, s₁)) : (x >>= f) s = (Except.error m, s₁) := by
  rw [bind_run, h]

theorem evaluateCondition_snd (r : Resource) (s : St) : (evaluateCondition r s).2 = s := by
  unfold evaluateCondition
  cases hc : r.cond with
  | none => rfl
  | some c =>
      cases he : evaluateSimpleCondition c with
      | none => simp only [he]; rfl
      | some b => simp only [he]; rfl

theorem evaluateCondition_pair (r : Resource) (s : St) :
    evaluateCondition r s = ((evaluateCondition r s).1, s) := by
  rcases hp : evaluateCondition r s with ⟨res, s'⟩
  have h := evaluateCondition_snd r s
  rw [hp] at h
  dsimp only at h
  rw [h]

theorem processExports_dry (r : Resource) (q : String) (a b : Nat) (sqq im : Bool) (s : St) :
    ∃ cx, processExports r q a b true sqq im s = (Except.ok (), { s with ctx := cx }) := by
  unfold processExports
  cases hE : r.exports.isEmpty <;> simp only [hE] <;> exact ⟨_, rfl⟩

theorem processScriptResource_dry (r : Resource) (s : St) :
    ∃ res, processScriptResource r true s = (res, s) := by
  unfold processScriptResource
  cases hrs : r.runScript <;> simp only [hrs] <;> exact ⟨_, rfl⟩



theorem getResourceType_ok (r : Resource) (t : String) (h : getResourceType r = Except.ok t) :
    t = r.rtype ∧ (r.rtype = "resource" ∨ r.rtype = "query" ∨ r.rtype = "script" ∨
      r.rtype = "multi" ∨ r.rtype = "command") := by
  unfold getResourceType at h
  split at h
  · rename_i hcond
    cases h
    refine ⟨rfl, ?_⟩
    simp only [Bool.or_eq_true, beq_iff_eq] at hcond
    tauto
  · simp at h

theorem buildResource_dry (sqq : Bool) (r : Resource) (s : St) :
    ∃ (res : Except String Unit) (cx : List (String × String)),
      buildResource true sqq r s = (res, { s with ctx := cx }) := by
  unfold buildResource
  rcases hg : getResourceType r with m | t
  · rw [bind_fatal (mOfExcept (Except.error m)) _ s m s rfl]
    exact ⟨_, _, rfl⟩
  · rw [bind_step (mOfExcept (Except.ok t)) _ s t s rfl]
    rcases hcv : (evaluateCondition r s).1 with cm | condOk
    · rw [bind_fatal _ _ s cm s (by rw [evaluateCondition_pair r s, hcv])]
      exact ⟨_, _, rfl⟩
    · rw [bind_step _ _ s condOk s (by rw [evaluateCondition_pair r s, hcv])]
      obtain ⟨ht, h5⟩ := getResourceType_ok r t hg
      subst ht
      cases condOk with
      | false => exact ⟨_, _, rfl⟩
      | true =>
          rcases h5 with hty | hty | hty | hty | hty
          · -- resource
            try simp only [hty]
            cases hsql : r.sql with
            | some sqlv =>
                try simp only [hsql]
                simp
                cases hcou : r.queries.find? (fun p => p.1 == "createorupdate") with
                | some pq =>
                    try simp only [hcou]
                    cases hexp : r.queries.find? (fun p => p.1 == "exports") with
                    | some pe =>
                        try simp only [hexp]
                        obtain ⟨cx, hpe⟩ := processExports_dry r pe.2.rendered pe.2.options.retries
                          pe.2.options.retry_delay sqq false s
                        exact ⟨_, cx, hpe⟩
                    | none =>
                        try simp only [hexp]
                        exact ⟨_, _, rfl⟩
                | none =>
                    try simp only [hcou]
                    cases hcr : r.queries.find? (fun p => p.1 == "create") with
                    | none =>
                        try simp only [hcr]
                        exact ⟨_, _, rfl⟩
                    | some pc =>
                        try simp only [hcr]
                        cases hsc : r.queries.find? (fun p => p.1 == "statecheck") with
                        | some ps =>
                            try simp only [hsc]
                            cases hex : r.queries.find? (fun p => p.1 == "exists") with
                            | some px =>
                                try simp only [hex]
                                cases hexp : r.queries.find? (fun p => p.1 == "exports") with
                                | some pe =>
                                    try simp only [hexp]
                                    obtain ⟨cx, hpe⟩ := processExports_dry r pe.2.rendered pe.2.options.retries
                                      pe.2.options.retry_delay sqq false s
                                    exact ⟨_, cx, hpe⟩
                                | none =>
                                    try simp only [hexp]
                                    exact ⟨_, _, rfl⟩
                            | none =>
                                try simp only [hex]
                                cases hexp : r.queries.find? (fun p => p.1 == "exports") with
                                | some pe =>
                                    try simp only [hexp]
                                    obtain ⟨cx, hpe⟩ := processExports_dry r pe.2.rendered pe.2.options.retries
                                      pe.2.options.retry_delay sqq false s
                                    exact ⟨_, cx, hpe⟩
                                | none =>
                                    try simp only [hexp]
                                    exact ⟨_, _, rfl⟩
                        | none =>
                            try simp only [hsc]
                            cases hexp : r.queries.find? (fun p => p.1 == "exports") with
                            | some pe =>
                                try simp only [hexp]
                                obtain ⟨cx, hpe⟩ := processExports_dry r pe.2.rendered pe.2.options.retries
                                  pe.2.options.retry_delay sqq false s
                                exact ⟨_, cx, hpe⟩
                            | none =>
                                try simp only [hexp]
                                cases hex : r.queries.find? (fun p => p.1 == "exists") with
                                | some px =>
                                    try simp only [hex]
                                    exact ⟨_, _, rfl⟩
                                | none =>
                                    try simp only [hex]
                                    exact ⟨_, _, rfl⟩
            | none =>
                try simp only [hsql]
                simp
                cases hcou : r.queries.find? (fun p => p.1 == "createorupdate") with
                | some pq =>
                    try simp only [hcou]
                    cases hexp : r.queries.find? (fun p => p.1 == "exports") with
                    | some pe =>
                        try simp only [hexp]
                        obtain ⟨cx, hpe⟩ := processExports_dry r pe.2.rendered pe.2.options.retries
                          pe.2.options.retry_delay sqq false s
                        exact ⟨_, cx, hpe⟩
                    | none =>
                        try simp only [hexp]
                        exact ⟨_, _, rfl⟩
                | none =>
                    try simp only [hcou]
                    cases hcr : r.queries.find? (fun p => p.1 == "create") with
                    | none =>
                        try simp only [hcr]
                        exact ⟨_, _, rfl⟩
                    | some pc =>
                        try simp only [hcr]
                        cases hsc : r.queries.find? (fun p => p.1 == "statecheck") with
                        | some ps =>
                            try simp only [hsc]
                            cases hex : r.queries.find? (fun p => p.1 == "exists") with
                            | some px =>
                                try simp only [hex]
                                cases hexp : r.queries.find? (fun p => p.1 == "exports") with
                                | some pe =>
                                    try simp only [hexp]
                                    obtain ⟨cx, hpe⟩ := processExports_dry r pe.2.rendered pe.2.options.retries
                                      pe.2.options.retry_delay sqq false s
                                    exact ⟨_, cx, hpe⟩
                                | none =>
                                    try simp only [hexp]
                                    exact ⟨_, _, rfl⟩
                            | none =>
                                try simp only [hex]
                                cases hexp : r.queries.find? (fun p => p.1 == "exports") with
                                | some pe =>
                                    try simp only [hexp]
                                    obtain ⟨cx, hpe⟩ := processExports_dry r pe.2.rendered pe.2.options.retries
                                      pe.2.options.retry_delay sqq false s
                                    exact ⟨_, cx, hpe⟩
                                | none =>
                                    try simp only [hexp]
                                    exact ⟨_, _, rfl⟩
                        | none =>
                            try simp only [hsc]
                            cases hexp : r.queries.find? (fun p => p.1 == "exports") with
                            | some pe =>
                                try simp only [hexp]
                                obtain ⟨cx, hpe⟩ := processExports_dry r pe.2.rendered pe.2.options.retries
                                  pe.2.options.retry_delay sqq false s
                                exact ⟨_, cx, hpe⟩
                            | none =>
                                try simp only [hexp]
                                cases hex : r.queries.find? (fun p => p.1 == "exists") with
                                | some px =>
                                    try simp only [hex]
                                    exact ⟨_, _, rfl⟩
                                | none =>
                                    try simp only [hex]
                                    exact ⟨_, _, rfl⟩
          · -- query
            try simp only [hty]
            cases hsql : r.sql with
            | some sqlv =>
                try simp only [hsql]
                obtain ⟨cx, hpe⟩ := processExports_dry r sqlv 1 0 sqq false s
                exact ⟨_, cx, hpe⟩
            | none =>
                try simp only [hsql]
                simp
                cases hexp : r.queries.find? (fun p => p.1 == "exports") with
                | some pe =>
                    try simp only [hexp]
                    obtain ⟨cx, hpe⟩ := processExports_dry r pe.2.rendered pe.2.options.retries
                      pe.2.options.retry_delay sqq false s
                    exact ⟨_, cx, hpe⟩
                | none =>
                    try simp only [hexp]
                    exact ⟨_, _, rfl⟩
          · -- script
            try simp only [hty]
            obtain ⟨res, hres⟩ := processScriptResource_dry r s
            exact ⟨res, s.ctx, hres⟩
          · -- multi
            try simp only [hty]
            cases hsql : r.sql with
            | some sqlv =>
                try simp only [hsql]
                simp
                cases hcou : r.queries.find? (fun p => p.1 == "createorupdate") with
                | some pq =>
                    try simp only [hcou]
                    cases hexp : r.queries.find? (fun p => p.1 == "exports") with
                    | some pe =>
                        try simp only [hexp]
                        obtain ⟨cx, hpe⟩ := processExports_dry r pe.2.rendered pe.2.options.retries
                          pe.2.options.retry_delay sqq false s
                        exact ⟨_, cx, hpe⟩
                    | none =>
                        try simp only [hexp]
                        exact ⟨_, _, rfl⟩
                | none =>
                    try simp only [hcou]
                    cases hcr : r.queries.find? (fun p => p.1 == "create") with
                    | none =>
                        try simp only [hcr]
                        exact ⟨_, _, rfl⟩
                    | some pc =>
                        try simp only [hcr]
                        cases hsc : r.queries.find? (fun p => p.1 == "statecheck") with
                        | some ps =>
                            try simp only [hsc]
                            cases hex : r.queries.find? (fun p => p.1 == "exists") with
                            | some px =>
                                try simp only [hex]
                                cases hexp : r.queries.find? (fun p => p.1 == "exports") with
                                | some pe =>
                                    try simp only [hexp]
                                    obtain ⟨cx, hpe⟩ := processExports_dry r pe.2.rendered pe.2.options.retries
                                      pe.2.options.retry_delay sqq false s
                                    exact ⟨_, cx, hpe⟩
                                | none =>
                                    try simp only [hexp]
                                    exact ⟨_, _, rfl⟩
                            | none =>
                                try simp only [hex]
                                cases hexp : r.queries.find? (fun p => p.1 == "exports") with
                                | some pe =>
                                    try simp only [hexp]
                                    obtain ⟨cx, hpe⟩ := processExports_dry r pe.2.rendered pe.2.options.retries
                                      pe.2.options.retry_delay sqq false s
                                    exact ⟨_, cx, hpe⟩
                                | none =>
                                    try simp only [hexp]
                                    exact ⟨_, _, rfl⟩
                        | none =>
                            try simp only [hsc]
                            cases hexp : r.queries.find? (fun p => p.1 == "exports") with
                            | some pe =>
                                try simp only [hexp]
                                obtain ⟨cx, hpe⟩ := processExports_dry r pe.2.rendered pe.2.options.retries
                                  pe.2.options.retry_delay sqq false s
                                exact ⟨_, cx, hpe⟩
                            | none =>
                                try simp only [hexp]
                                cases hex : r.queries.find? (fun p => p.1 == "exists") with
                                | some px =>
                                    try simp only [hex]
                                    exact ⟨_, _, rfl⟩
                                | none =>
                                    try simp only [hex]
                                    exact ⟨_, _, rfl⟩
            | none =>
                try simp only [hsql]
                simp
                cases hcou : r.queries.find? (fun p => p.1 == "createorupdate") with
                | some pq =>
                    try simp only [hcou]
                    cases hexp : r.queries.find? (fun p => p.1 == "exports") with
                    | some pe =>
                        try simp only [hexp]
                        obtain ⟨cx, hpe⟩ := processExports_dry r pe.2.rendered pe.2.options.retries
                          pe.2.options.retry_delay sqq false s
                        exact ⟨_, cx, hpe⟩
                    | none =>
                        try simp only [hexp]
                        exact ⟨_, _, rfl⟩
                | none =>
                    try simp only [hcou]
                    cases hcr : r.queries.find? (fun p => p.1 == "create") with
                    | none =>
                        try simp only [hcr]
                        exact ⟨_, _, rfl⟩
                    | some pc =>
                        try simp only [hcr]
                        cases hsc : r.queries.find? (fun p => p.1 == "statecheck") with
                        | some ps =>
                            try simp only [hsc]
                            cases hex : r.queries.find? (fun p => p.1 == "exists") with
                            | some px =>
                                try simp only [hex]
                                cases hexp : r.queries.find? (fun p => p.1 == "exports") with
                                | some pe =>
                                    try simp only [hexp]
                                    obtain ⟨cx, hpe⟩ := processExports_dry r pe.2.rendered pe.2.options.retries
                                      pe.2.options.retry_delay sqq false s
                                    exact ⟨_, cx, hpe⟩
                                | none =>
                                    try simp only [hexp]
                                    exact ⟨_, _, rfl⟩
                            | none =>
                                try simp only [hex]
                                cases hexp : r.queries.find? (fun p => p.1 == "exports") with
                                | some pe =>
                                    try simp only [hexp]
                                    obtain ⟨cx, hpe⟩ := processExports_dry r pe.2.rendered pe.2.options.retries
                                      pe.2.options.retry_delay sqq false s
                                    exact ⟨_, cx, hpe⟩
                                | none =>
                                    try simp only [hexp]
                                    exact ⟨_, _, rfl⟩
                        | none =>
                            try simp only [hsc]
                            cases hexp : r.queries.find? (fun p => p.1 == "exports") with
                            | some pe =>
                                try simp only [hexp]
                                obtain ⟨cx, hpe⟩ := processExports_dry r pe.2.rendered pe.2.options.retries
                                  pe.2.options.retry_delay sqq false s
                                exact ⟨_, cx, hpe⟩
                            | none =>
                                try simp only [hexp]
                                cases hex : r.queries.find? (fun p => p.1 == "exists") with
                                | some px =>
                                    try simp only [hex]
                                    exact ⟨_, _, rfl⟩
                                | none =>
                                    try simp only [hex]
                                    exact ⟨_, _, rfl⟩
          · -- command
            try simp only [hty]
            cases hsql : r.sql with
            | some sqlv =>
                try simp only [hsql]
                exact ⟨_, _, rfl⟩
            | none =>
                try simp only [hsql]
                simp
                cases hcm : r.queries.find? (fun p => p.1 == "command") with
                | some pc =>
                    try simp only [hcm]
                    cases hexp : r.queries.find? (fun p => p.1 == "exports") with
                    | some pe =>
                        try simp only [hexp]
                        obtain ⟨cx, hpe⟩ := processExports_dry r pe.2.rendered pe.2.options.retries
                          pe.2.options.retry_delay sqq false s
                        exact ⟨_, cx, hpe⟩
                    | none =>
                        try simp only [hexp]
                        exact ⟨_, _, rfl⟩
                | none =>
                    try simp only [hcm]
                    cases hexp : r.queries.find? (fun p => p.1 == "exports") with
                    | some pe =>
                        try simp only [hexp]
                        exact ⟨_, _, rfl⟩
                    | none =>
                        try simp only [hexp]
                        exact ⟨_, _, rfl⟩



theorem processStackExports_dry (m : Manifest) (of : Option String) (s : St) :
    processStackExports m true of s = (Except.ok (), s) := by
  unfold processStackExports
  cases of <;> rfl

theorem buildResources_dry (sqq : Bool) :
    ∀ (rs : List Resource) (s : St),
      ∃ (res : Except String Unit) (cx : List (String × String)),
        buildResources true sqq rs s = (res, { s with ctx := cx }) := by
  intro rs
  induction rs with
  | nil => exact fun s => ⟨Except.ok (), s.ctx, rfl⟩
  | cons r rest ih =>
      intro s
      obtain ⟨res, cx, h1⟩ := buildResource_dry sqq r s
      show ∃ res cx, (buildResource true sqq r >>= fun _ => buildResources true sqq rest) s = _
      rcases res with e | a
      · rw [bind_fatal _ _ s e { s with ctx := cx } h1]
        exact ⟨_, cx, rfl⟩
      · rw [bind_step _ _ s a { s with ctx := cx } h1]
        obtain ⟨res2, cx2, h2⟩ := ih { s with ctx := cx }
        rw [h2]
        exact ⟨res2, cx2, rfl⟩

theorem runBuild_dry (m : Manifest) (sqq : Bool) (of : Option String) (s : St) :
    ∃ (res : Except String Unit) (cx : List (String × String)),
      runBuild m true sqq of s = (res, { s with ctx := cx }) := by
  show ∃ res cx, (buildResources true sqq m.resources >>= fun _ =>
    processStackExports m true of) s = _
  obtain ⟨res, cx, h1⟩ := buildResources_dry sqq m.resources s
  rcases res with e | a
  · rw [bind_fatal _ _ s e { s with ctx := cx } h1]
    exact ⟨_, cx, rfl⟩
  · rw [bind_step _ _ s a { s with ctx := cx } h1]
    rw [processStackExports_dry]
    exact ⟨_, cx, rfl⟩

/-- C6 (amended): the resource-processing phase of a build never reaches
the engine under the dry-run flag: for every manifest, `run_build` leaves
the dispatch trace and the response script untouched (it only logs and
updates the in-memory context), whether it completes or exits on a
configuration error.  The setup phase of the build command, however, does
dispatch provider statements even in dry run (see the counterexample). -/
theorem claim_C6_dry_run_build :
    (∀ (m : Manifest) (sqq : Bool) (of : Option String) (s : St),
      ∃ (res : Except String Unit) (cx : List (String × String)),
        runBuild m true sqq of s = (res, { s with ctx := cx })) ∧
    (∀ (m : Manifest) (sqq : Bool) (of : Option String) (s : St),
      ((runBuild m true sqq of) s).2.trace = s.trace ∧
      ((runBuild m true sqq of) s).2.script = s.script) := by
  constructor
  · exact runBuild_dry
  · intro m sqq of s
    obtain ⟨res, cx, h⟩ := runBuild_dry m sqq of s
    rw [h]
    exact ⟨rfl, rfl⟩

/-- C6 counterexample: a dry-run build does not issue zero statements to
the engine — the runner constructor pulls providers before `run_build`
ever sees the dry-run flag, so even a dry-run build of an empty manifest
dispatches `SHOW PROVIDERS` (and would dispatch `REGISTRY PULL` for a
missing provider). -/
theorem claim_C6_counterexample :
    buildCommand { name := "stk", providers := ["aws"], resources := [], stackExports := [] }
      true false none
      { script := [Resp.ok (QueryResult.data ["name"] [["aws"]] [])],
        trace := [], ctx := [], ext := [] } =
    (Except.ok (),
      { script := [], trace := ["SHOW PROVIDERS"], ctx := [], ext := [] }) := rfl

/-- C10: a resource of type `script` passes resource-type validation
(`get_resource_type` accepts it), yet the test command terminates the
process fatally with an unknown-resource-type error the moment its loop
reaches that resource, while the build command processes the same type
without complaint (shown here for a dry run, where the script is only
logged). -/
theorem claim_C10_test_rejects_script :
    ∀ (d q : Bool) (nm scr : String) (sql runScr : Option String)
      (exps : List ExportDecl) (prot : List String) (cond : Option String)
      (skipv : Option Bool) (qs : List (String × ParsedQuery)) (s : St),
      getResourceType
          { name := nm, rtype := "script", sql := sql, runScript := runScr,
            exports := exps, protectedExports := prot, cond := cond,
            skipValidation := skipv, queries := qs } =
        Except.ok "script" ∧
      testResource d q
          { name := nm, rtype := "script", sql := sql, runScript := runScr,
            exports := exps, protectedExports := prot, cond := cond,
            skipValidation := skipv, queries := qs } s =
        (Except.error "unknown resource type: script", s) ∧
      buildResource true q
          { name := nm, rtype := "script", sql := sql, runScript := some scr,
            exports := exps, protectedExports := prot, cond := none,
            skipValidation := skipv, queries := qs } s =
        (Except.ok (), s) := by
  intro d q nm scr sql runScr exps prot cond skipv qs s
  exact ⟨rfl, rfl, rfl⟩

/-- C7: merging a property whose base value is the JSON array `["x"]`
with merge sources `a = ["y"]` and `b = ["x","z"]` resolves to the JSON
array `["x","y","z"]`; in general the array merge is a value-equality
union (keyed on the serialized form, exactly as the source deduplicates)
that preserves left-biased order and introduces no duplicates. -/
theorem claim_C7_merge_union :
    renderMerge "p" (some "[\"x\"]") ["a", "b"]
      [("a", "[\"y\"]"), ("b", "[\"x\",\"z\"]")] =
      Except.ok (some "[\"x\",\"y\",\"z\"]") ∧
    (∀ (b m : List Json) (x : Json),
      x ∈ mergeArrays b m ↔
        x ∈ b ∨ (x ∈ m ∧ ¬ Json.ser x ∈ b.map Json.ser)) ∧
    (∀ (b m : List Json),
      (b.map Json.ser).Nodup → (m.map Json.ser).Nodup →
      ((mergeArrays b m).map Json.ser).Nodup) := by
  refine ⟨rfl, ?_, ?_⟩
  · intro b m x
    simp [mergeArrays, List.mem_filter, List.elem_iff]
  · intro b m hb hm
    rw [mergeArrays, List.map_append]
    rw [List.nodup_append]
    refine ⟨hb, ?_, ?_⟩
    · exact hm.sublist ((List.filter_sublist m).map Json.ser)
    · intro a ha ha2
      simp only [List.mem_map] at ha ha2
      obtain ⟨j, hj, hja⟩ := ha2
      rw [List.mem_filter] at hj
      have hnc := hj.2
      simp only [Bool.not_eq_eq_eq_not, Bool.not_true] at hnc
      have hmem : Json.ser j ∈ List.map Json.ser b := by
        rw [hja]
        obtain ⟨i, hi, hia⟩ := ha
        rw [← hia]
        exact List.mem_map_of_mem Json.ser hi
      rw [← List.elem_iff] at hmem
      simp only [List.contains] at hnc
      rw [hmem] at hnc
      exact Bool.noConfusion hnc

/-- Witness for C7 at concrete arrays, discharging the no-duplicates
hypotheses. -/
theorem claim_C7_witness :
    ((mergeArrays [Json.str "x"] [Json.str "x", Json.str "z"]).map Json.ser).Nodup :=
  claim_C7_merge_union.2.2 [Json.str "x"] [Json.str "x", Json.str "z"]
    (by decide) (by decide)


theorem bind_assoc_M (x : M α) (f : α → M β) (g : β → M γ) :
    (x >>= f) >>= g = x >>= fun a => f a >>= g := by
  funext s
  show M.bind (M.bind x f) g s = M.bind x (fun a => M.bind (f a) g) s
  unfold M.bind
  rcases x s with ⟨res, s₁⟩
  cases res <;> rfl

theorem pure_bind_M (a : α) (f : α → M β) : ((pure a : M α) >>= f) = f a := rfl

theorem bind_pure_unit (x : M Unit) : (x >>= fun _ => (pure () : M Unit)) = x := by
  funext s
  show M.bind x (fun _ => M.pure ()) s = x s
  unfold M.bind M.pure
  rcases x s with ⟨res, s₁⟩
  cases res <;> rfl

/-- C4: a teardown of a manifest declaring resources `[A, B, C]` first
collects exports for A, then B, then C (forward manifest order), and only
then attempts de-provisioning for C, then B, then A (exact reverse
manifest order) — stated as a program equation on `run_teardown` for all
resources, and exhibited on a concrete three-resource stack whose
dispatch trace shows the three exports queries strictly before any delete
statement and the delete statements `DC`, `DB`, `DA` in reverse manifest
order. -/
theorem claim_C4_teardown_order :
    (∀ (A B C : Resource) (nm : String) (provs se : List String) (d q : Bool),
      runTeardown
          { name := nm, providers := provs, resources := [A, B, C],
            stackExports := se } d q =
        (do
          collectResource d q A
          collectResource d q B
          collectResource d q C
          teardownResource d q C
          teardownResource d q B
          teardownResource d q A)) ∧
    runTeardown c4manifest false false c4st0 = (Except.ok (), c4st12) := by
  constructor
  · intro A B C nm provs se d q
    show (collectExportsAll d q [A, B, C] >>= fun _ =>
      teardownResources d q [A, B, C].reverse) = _
    have hrev : [A, B, C].reverse = [C, B, A] := rfl
    rw [hrev]
    simp only [collectExportsAll, teardownResources]
    simp only [bind_assoc_M, pure_bind_M, bind_pure_unit]
  · have h1 : collectResource false false c4resA c4st0 = (Except.ok (), c4st1) := by decide
    have h2 : collectResource false false c4resB c4st1 = (Except.ok (), c4st2) := by decide
    have h3 : collectResource false false c4resC c4st2 = (Except.ok (), c4st3) := by decide
    have h4 : teardownResource false false c4resC c4st3 = (Except.ok (), c4st6) := by decide
    have h5 : teardownResource false false c4resB c4st6 = (Except.ok (), c4st9) := by decide
    have h6 : teardownResource false false c4resA c4st9 = (Except.ok (), c4st12) := by decide
    have hc : collectExportsAll false false [c4resA, c4resB, c4resC] c4st0 =
        (Except.ok (), c4st3) := by
      show (collectResource false false c4resA >>= fun _ =>
        collectExportsAll false false [c4resB, c4resC]) c4st0 = _
      rw [bind_step _ _ c4st0 () c4st1 h1]
      show (collectResource false false c4resB >>= fun _ =>
        collectExportsAll false false [c4resC]) c4st1 = _
      rw [bind_step _ _ c4st1 () c4st2 h2]
      show (collectResource false false c4resC >>= fun _ =>
        collectExportsAll false false []) c4st2 = _
      rw [bind_step _ _ c4st2 () c4st3 h3]
      rfl
    have ht : teardownResources false false [c4resC, c4resB, c4resA] c4st3 =
        (Except.ok (), c4st12) := by
      show (teardownResource false false c4resC >>= fun _ =>
        teardownResources false false [c4resB, c4resA]) c4st3 = _
      rw [bind_step _ _ c4st3 () c4st6 h4]
      show (teardownResource false false c4resB >>= fun _ =>
        teardownResources false false [c4resA]) c4st6 = _
      rw [bind_step _ _ c4st6 () c4st9 h5]
      show (teardownResource false false c4resA >>= fun _ =>
        teardownResources false false []) c4st9 = _
      rw [bind_step _ _ c4st9 () c4st12 h6]
      rfl
    show (collectExportsAll false false [c4resA, c4resB, c4resC] >>= fun _ =>
      teardownResources false false [c4resA, c4resB, c4resC].reverse) c4st0 = _
    have hrev : [c4resA, c4resB, c4resC].reverse = [c4resC, c4resB, c4resA] := rfl
    rw [hrev]
    rw [bind_step _ _ c4st0 () c4st3 hc]
    exact ht




theorem processRegistryPull_id (cmd : String)
    (h : strStartsWith cmd "REGISTRY PULL " = false) : processRegistryPull cmd = cmd := by
  unfold processRegistryPull
  simp [h]

theorem runCommandLoop_first (cmd : String) (ie : Bool) (s s₁ : St)
    (out : Except String String)
    (h : commandAttempt cmd ie s = (CmdStep.final out, s₁)) (n : Nat) :
    runCommandLoop cmd ie n s = (out, s₁) := by
  cases n <;> (unfold runCommandLoop; rw [h])

/-- C1 (amended): for a createorupdate-anchored resource that also carries
a statecheck anchor, a non-dry build performs no existence or state probe
before the mutation and dispatches the create-or-update statement exactly
once, unconditionally, as its first statement; but — contrary to the
claim — the post-deploy verification still issues the statecheck probe,
up to its retry budget, after the mutation: the dispatched statements are
exactly the mutation followed by `k ≤ retries` copies of the statecheck
query. -/
theorem claim_C1_createorupdate_unconditional
    (nm msg : String) (cou sc : ParsedQuery) (rest : List Resp) (s : St)
    (hscript : s.script = Resp.ok (QueryResult.command msg) :: rest)
    (hnr : strStartsWith cou.rendered "REGISTRY PULL " = false) :
    ∃ k ≤ sc.options.retries,
      (buildResource false false (c1res nm cou sc) s).2.trace =
        (s.trace ++ [cou.rendered]) ++ List.replicate k sc.rendered := by
  obtain ⟨k, hk, hps⟩ := perform_retries_state sc.rendered sc.options.retry_delay false
    sc.options.retries { s with script := rest, trace := s.trace ++ [cou.rendered] }
  refine ⟨k, hk, ?_⟩
  have hca : commandAttempt cou.rendered false s =
      (CmdStep.final (Except.ok msg),
        { s with script := rest, trace := s.trace ++ [cou.rendered] }) := by
    unfold commandAttempt execQ
    rw [hscript]
  have hcmd : run_stackql_command cou.rendered false cou.options.retries
      cou.options.retry_delay s =
      (Except.ok msg, { s with script := rest, trace := s.trace ++ [cou.rendered] }) := by
    show runCommandLoop (processRegistryPull cou.rendered) false cou.options.retries s = _
    rw [processRegistryPull_id cou.rendered hnr]
    exact runCommandLoop_first cou.rendered false s _ _ hca cou.options.retries
  have hcr : createResource (c1res nm cou sc) cou.rendered cou.options.retries
      cou.options.retry_delay false false false s =
      (Except.ok true, { s with script := rest, trace := s.trace ++ [cou.rendered] }) := by
    show (run_stackql_command cou.rendered false cou.options.retries cou.options.retry_delay
      >>= fun _ => pure true) s = _
    rw [bind_step _ _ s msg _ hcmd]
    rfl
  rcases hpr : perform_retries sc.rendered sc.options.retries sc.options.retry_delay false
      { s with script := rest, trace := s.trace ++ [cou.rendered] } with ⟨pres, s₃⟩
  rw [hpr] at hps
  dsimp only at hps
  have hchk : checkIfResourceIsCorrectState (c1res nm cou sc) sc.rendered sc.options.retries
      sc.options.retry_delay false false
      { s with script := rest, trace := s.trace ++ [cou.rendered] } = (pres, s₃) := hpr
  show ((buildStateMachine (c1res nm cou sc) "resource" false false true
      (some (cou.rendered, cou.options.retries, cou.options.retry_delay))
      (some (cou.rendered, cou.options.retries, cou.options.retry_delay))
      none (some sc) none 1 0) >>= fun _ =>
    ((pure () : M Unit) >>= fun _ => (pure () : M Unit))) s |>.2.trace =
    (s.trace ++ [cou.rendered]) ++ List.replicate k sc.rendered
  rcases pres with e | b
  · have hbsm : buildStateMachine (c1res nm cou sc) "resource" false false true
        (some (cou.rendered, cou.options.retries, cou.options.retry_delay))
        (some (cou.rendered, cou.options.retries, cou.options.retry_delay))
        none (some sc) none 1 0 s = (Except.error e, s₃) := by
      show (createResource (c1res nm cou sc) cou.rendered cou.options.retries
          cou.options.retry_delay false false false >>= fun icu =>
        (pure icu : M Bool) >>= fun icu2 =>
        (if icu2 then
          checkIfResourceIsCorrectState (c1res nm cou sc) sc.rendered sc.options.retries
            sc.options.retry_delay false false >>= fun ic =>
            pure (ic, (none : Option (List Row)))
        else pure (false, (none : Option (List Row)))) >>= fun post =>
        if !post.1 && !false then
          fatal ("deployment failed for " ++ nm ++ " after post-deploy checks.")
        else pure post.2) s = (Except.error e, s₃)
      rw [bind_step _ _ s true _ hcr]
      rw [bind_step _ _ _ true _ (pure_run true _)]
      show ((checkIfResourceIsCorrectState (c1res nm cou sc) sc.rendered sc.options.retries
          sc.options.retry_delay false false >>= fun ic =>
          (pure (ic, (none : Option (List Row))) : M (Bool × Option (List Row)))) >>=
        fun post =>
        if !post.1 && !false then
          fatal ("deployment failed for " ++ nm ++ " after post-deploy checks.")
        else (pure post.2 : M (Option (List Row))))
        { s with script := rest, trace := s.trace ++ [cou.rendered] } = _
      have hin : (checkIfResourceIsCorrectState (c1res nm cou sc) sc.rendered
          sc.options.retries sc.options.retry_delay false false >>= fun ic =>
          (pure (ic, (none : Option (List Row))) : M (Bool × Option (List Row))))
          { s with script := rest, trace := s.trace ++ [cou.rendered] } =
          (Except.error e, s₃) :=
        bind_fatal _ _ _ e s₃ hchk
      rw [bind_fatal _ _ _ e s₃ hin]
    rw [bind_fatal _ _ s e s₃ hbsm]
    rw [hps]
  · have hin : (checkIfResourceIsCorrectState (c1res nm cou sc) sc.rendered
        sc.options.retries sc.options.retry_delay false false >>= fun ic =>
        (pure (ic, (none : Option (List Row))) : M (Bool × Option (List Row))))
        { s with script := rest, trace := s.trace ++ [cou.rendered] } =
        (Except.ok (b, (none : Option (List Row))), s₃) := by
      rw [bind_step _ _ _ b s₃ hchk]
      rfl
    cases b
    · have hbsm : buildStateMachine (c1res nm cou sc) "resource" false false true
          (some (cou.rendered, cou.options.retries, cou.options.retry_delay))
          (some (cou.rendered, cou.options.retries, cou.options.retry_delay))
          none (some sc) none 1 0 s =
          (Except.error ("deployment failed for " ++ nm ++ " after post-deploy checks."),
            s₃) := by
        show (createResource (c1res nm cou sc) cou.rendered cou.options.retries
            cou.options.retry_delay false false false >>= fun icu =>
          (pure icu : M Bool) >>= fun icu2 =>
          (if icu2 then
            checkIfResourceIsCorrectState (c1res nm cou sc) sc.rendered sc.options.retries
              sc.options.retry_delay false false >>= fun ic =>
              pure (ic, (none : Option (List Row)))
          else pure (false, (none : Option (List Row)))) >>= fun post =>
          if !post.1 && !false then
            fatal ("deployment failed for " ++ nm ++ " after post-deploy checks.")
          else pure post.2) s = _
        rw [bind_step _ _ s true _ hcr]
        rw [bind_step _ _ _ true _ (pure_run true _)]
        show ((checkIfResourceIsCorrectState (c1res nm cou sc) sc.rendered sc.options.retries
            sc.options.retry_delay false false >>= fun ic =>
            (pure (ic, (none : Option (List Row))) : M (Bool × Option (List Row)))) >>=
          fun post =>
          if !post.1 && !false then
            fatal ("deployment failed for " ++ nm ++ " after post-deploy checks.")
          else (pure post.2 : M (Option (List Row))))
          { s with script := rest, trace := s.trace ++ [cou.rendered] } = _
        rw [bind_step _ _ _ (false, (none : Option (List Row))) s₃ hin]
        rfl
      rw [bind_fatal _ _ s _ s₃ hbsm]
      rw [hps]
    · have hbsm : buildStateMachine (c1res nm cou sc) "resource" false false true
          (some (cou.rendered, cou.options.retries, cou.options.retry_delay))
          (some (cou.rendered, cou.options.retries, cou.options.retry_delay))
          none (some sc) none 1 0 s =
          (Except.ok (none : Option (List Row)), s₃) := by
        show (createResource (c1res nm cou sc) cou.rendered cou.options.retries
            cou.options.retry_delay false false false >>= fun icu =>
          (pure icu : M Bool) >>= fun icu2 =>
          (if icu2 then
            checkIfResourceIsCorrectState (c1res nm cou sc) sc.rendered sc.options.retries
              sc.options.retry_delay false false >>= fun ic =>
              pure (ic, (none : Option (List Row)))
          else pure (false, (none : Option (List Row)))) >>= fun post =>
          if !post.1 && !false then
            fatal ("deployment failed for " ++ nm ++ " after post-deploy checks.")
          else pure post.2) s = _
        rw [bind_step _ _ s true _ hcr]
        rw [bind_step _ _ _ true _ (pure_run true _)]
        show ((checkIfResourceIsCorrectState (c1res nm cou sc) sc.rendered sc.options.retries
            sc.options.retry_delay false false >>= fun ic =>
            (pure (ic, (none : Option (List Row))) : M (Bool × Option (List Row)))) >>=
          fun post =>
          if !post.1 && !false then
            fatal ("deployment failed for " ++ nm ++ " after post-deploy checks.")
          else (pure post.2 : M (Option (List Row))))
          { s with script := rest, trace := s.trace ++ [cou.rendered] } = _
        rw [bind_step _ _ _ (true, (none : Option (List Row))) s₃ hin]
        rfl
      rw [bind_step _ _ s (none : Option (List Row)) s₃ hbsm]
      show s₃.trace = _
      rw [hps]

/-- Witness for C1 (amended): a createorupdate resource with a statecheck
anchor, whose mutation succeeds and whose post-deploy statecheck passes on
the first probe. -/
theorem claim_C1_witness :
    ∃ k ≤ 1,
      (buildResource false false (c1res "m" { rendered := "COU" } { rendered := "SC" })
        { script := [Resp.ok (QueryResult.command "done"),
            Resp.ok (QueryResult.data ["count"] [["1"]] [])],
          trace := [], ctx := [], ext := [] }).2.trace =
      ([] ++ ["COU"]) ++ List.replicate k "SC" :=
  claim_C1_createorupdate_unconditional "m" "done" { rendered := "COU" } { rendered := "SC" }
    [Resp.ok (QueryResult.data ["count"] [["1"]] [])]
    { script := [Resp.ok (QueryResult.command "done"),
        Resp.ok (QueryResult.data ["count"] [["1"]] [])],
      trace := [], ctx := [], ext := [] }
    rfl (by decide)

/-- C1 counterexample: the claim states that no state-check statement is
ever issued for a createorupdate-anchored resource, but when a statecheck
anchor is also present the post-deploy verification dispatches it: this
concrete non-dry build of such a resource dispatches the statecheck
statement `SC` right after the mutation `COU`. -/
theorem claim_C1_counterexample :
    buildResource false false (c1res "m" { rendered := "COU" } { rendered := "SC" })
      { script := [Resp.ok (QueryResult.command "done"),
          Resp.ok (QueryResult.data ["count"] [["1"]] [])],
        trace := [], ctx := [], ext := [] } =
      (Except.ok (),
        { script := [], trace := ["COU", "SC"], ctx := [], ext := [] }) := by
  decide



/-- C2: for a resource using the exports-proxy strategy (no statecheck
anchor, an exports anchor present), when the initial proxy call returns a
single error-free row, the whole non-dry build of that resource dispatches
the exports query exactly once — the later export-propagation step folds
exactly the rows retained from that proxy call into the global context and
issues no second query (and no create/update mutation runs either). -/
theorem claim_C2_proxy_reuse
    (nm : String) (cq eq : ParsedQuery) (eds : List ExportDecl)
    (cols r₀ : List String) (notices : List String) (rest : List Resp) (s : St)
    (hscript : s.script = Resp.ok (QueryResult.data cols [r₀] notices) :: rest)
    (heds : eds.isEmpty = false)
    (herr : Row.find (rowOf cols r₀) "error" = none)
    (hderr : Row.find (rowOf cols r₀) "_stackql_deploy_error" = none)
    (hcount : Row.find (rowOf cols r₀) "count" = none) :
    buildResource false false (c2res nm cq eq eds) s =
      (Except.ok (),
        { s with
          script := rest, trace := s.trace ++ [eq.rendered],
          ctx := exportVarsCtx s.ctx
            (processExportData [rowOf cols r₀] eds (eds.all ExportDecl.isRename)) }) := by
  have hexec : execQ eq.rendered s =
      (Resp.ok (QueryResult.data cols [r₀] notices),
        { s with script := rest, trace := s.trace ++ [eq.rendered] }) := by
    unfold execQ
    rw [hscript]
  have hcc : countCheck [rowOf cols r₀] = Except.ok [rowOf cols r₀] := by
    unfold countCheck
    simp only [List.headD_cons, hcount]
  have hstep : queryAttemptStep eq.rendered s =
      (StepOut.final (Except.ok [rowOf cols r₀]),
        { s with script := rest, trace := s.trace ++ [eq.rendered] }) := by
    unfold queryAttemptStep
    rw [hexec]
    simp only [List.isEmpty_cons, Bool.false_eq_true, if_false, List.map_cons, List.map_nil,
      List.headD_cons, herr, hcc]
  have hq : run_stackql_query eq.rendered true 1 0 s =
      (Except.ok [rowOf cols r₀],
        { s with script := rest, trace := s.trace ++ [eq.rendered] }) := by
    show (match queryAttemptStep eq.rendered s with
      | (StepOut.final out, s₁) => (out, s₁)
      | (StepOut.retry _, s₁) => runQueryLoop eq.rendered true 0 s₁) = _
    rw [hstep]
  have hcx : checkExportsAsStatecheckProxy [rowOf cols r₀] = true := by
    show (!(Row.find (rowOf cols r₀) "_stackql_deploy_error").isSome &&
      !(Row.find (rowOf cols r₀) "error").isSome) = true
    rw [hderr, herr]
    rfl
  have hproxy : checkStateUsingExportsProxy (c2res nm cq eq eds) eq.rendered 1 0 false false
      s = (Except.ok (true, some [rowOf cols r₀]),
        { s with script := rest, trace := s.trace ++ [eq.rendered] }) := by
    show (run_stackql_query eq.rendered true 1 0 >>= fun result =>
      if checkExportsAsStatecheckProxy result then
        (pure (true, some result) : M (Bool × Option (List Row)))
      else pure (false, none)) s = _
    rw [bind_step _ _ s [rowOf cols r₀] _ hq]
    rw [hcx]
    rfl
  have hinit : (checkStateUsingExportsProxy (c2res nm cq eq eds) eq.rendered 1 0 false false
      >>= fun proxy =>
      if proxy.1 then (pure (true, true, proxy.2) : M (Bool × Bool × Option (List Row)))
      else pure (false, false, (none : Option (List Row)))) s =
      (Except.ok (true, true, some [rowOf cols r₀]),
        { s with script := rest, trace := s.trace ++ [eq.rendered] }) := by
    rw [bind_step _ _ s (true, some [rowOf cols r₀]) _ hproxy]
    rfl
  have hbsm : buildStateMachine (c2res nm cq eq eds) "resource" false false false
      (some (cq.rendered, cq.options.retries, cq.options.retry_delay)) none
      none none (some eq.rendered) eq.options.retries eq.options.retry_delay s =
      (Except.ok (some [rowOf cols r₀]),
        { s with script := rest, trace := s.trace ++ [eq.rendered] }) := by
    show ((checkStateUsingExportsProxy (c2res nm cq eq eds) eq.rendered 1 0 false false
        >>= fun proxy =>
        if proxy.1 then (pure (true, true, proxy.2) : M (Bool × Bool × Option (List Row)))
        else pure (false, false, (none : Option (List Row)))) >>= fun init =>
      (if !init.1 then
        createResource (c2res nm cq eq eds) cq.rendered cq.options.retries
          cq.options.retry_delay false false false
      else (pure false : M Bool)) >>= fun icu =>
      (if init.1 && !init.2.1 then
        updateResource (c2res nm cq eq eds) (none : Option String) 1 0 false false false
      else pure icu) >>= fun icu2 =>
      (if icu2 then
        checkStateUsingExportsProxy (c2res nm cq eq eds) eq.rendered eq.options.retries
          eq.options.retry_delay false false >>= fun proxy =>
          (pure (proxy.1, if proxy.2.isSome then proxy.2 else init.2.2) :
            M (Bool × Option (List Row)))
      else pure (init.2.1, init.2.2)) >>= fun post =>
      if !post.1 && !false then
        fatal ("deployment failed for " ++ nm ++ " after post-deploy checks.")
      else pure post.2) s = _
    rw [bind_step _ _ s (true, true, some [rowOf cols r₀]) _ hinit]
    rfl
  show ((buildStateMachine (c2res nm cq eq eds) "resource" false false false
      (some (cq.rendered, cq.options.retries, cq.options.retry_delay)) none
      none none (some eq.rendered) eq.options.retries eq.options.retry_delay) >>=
    fun proxyResult =>
    ((pure () : M Unit) >>= fun _ =>
      match proxyResult with
      | some proxyRows =>
          if !eds.isEmpty then processExportsFromResult (c2res nm cq eq eds) proxyRows
          else (pure () : M Unit)
      | none => processExports (c2res nm cq eq eds) eq.rendered eq.options.retries
          eq.options.retry_delay false false false)) s = _
  rw [bind_step _ _ s (some [rowOf cols r₀]) _ hbsm]
  rw [heds]
  show processExportsFromResult (c2res nm cq eq eds) [rowOf cols r₀]
    { s with script := rest, trace := s.trace ++ [eq.rendered] } = _
  unfold processExportsFromResult
  show (if eds.isEmpty || [rowOf cols r₀].isEmpty then (pure () : M Unit)
    else if [rowOf cols r₀].length > 1 then fatal "Exports should include one row only"
    else export_vars (processExportData [rowOf cols r₀] eds (eds.all ExportDecl.isRename)))
    { s with script := rest, trace := s.trace ++ [eq.rendered] } = _
  rw [heds]
  rfl

/-- Witness for C2: a one-row proxy result `vpc_id = vpc-123`; the build
consumes the single scripted response, dispatches the exports query once
and folds the proxy row into the context. -/
theorem claim_C2_witness :
    buildResource false false
      (c2res "vpc" { rendered := "CREATE" } { rendered := "EXP" } [ExportDecl.plain "vpc_id"])
      { script := [Resp.ok (QueryResult.data ["vpc_id"] [["vpc-123"]] [])],
        trace := [], ctx := [], ext := [] } =
      (Except.ok (),
        { script := [], trace := [] ++ ["EXP"],
          ctx := [("vpc_id", "vpc-123")], ext := [] }) :=
  claim_C2_proxy_reuse "vpc" { rendered := "CREATE" } { rendered := "EXP" }
    [ExportDecl.plain "vpc_id"] ["vpc_id"] ["vpc-123"] [] []
    { script := [Resp.ok (QueryResult.data ["vpc_id"] [["vpc-123"]] [])],
      trace := [], ctx := [], ext := [] }
    rfl rfl (by decide) (by decide) (by decide)


/-- C5 (amended): during a non-dry-run teardown, a post-delete existence
re-probe reporting that the resource still exists is fatal for the whole
run for `multi` resources as much as for any other de-provisioned type —
the source has no multi exception on this branch (only delete-statement
errors are tolerated for multi, via ignore_errors).  Stated for a multi
resource with a one-shot postdelete budget whose probe returns a
count-free, error-free row (so the probe classifies as still existing):
the run dies with the deletion-failure message after dispatching exactly
the delete statement and one probe. -/
theorem claim_C5_multi_postdelete_fatal
    (nm msg : String) (epq dpq : ParsedQuery) (cols r₀ : List String) (rest : List Resp)
    (s : St)
    (hpd : epq.options.postdelete_retries = 1)
    (hscript : s.script = Resp.ok (QueryResult.command msg) ::
      Resp.ok (QueryResult.data cols [r₀] []) :: rest)
    (hnr : strStartsWith dpq.rendered "REGISTRY PULL " = false)
    (herr : Row.find (rowOf cols r₀) "error" = none)
    (hderr : Row.find (rowOf cols r₀) "_stackql_deploy_error" = none)
    (hcount : Row.find (rowOf cols r₀) "count" = none) :
    teardownResource false false (c5res nm epq dpq) s =
      (Except.error ("failed to delete " ++ nm ++ "."),
        { s with
          script := rest,
          trace := (s.trace ++ [dpq.rendered]) ++ [epq.rendered] }) := by
  have hca : commandAttempt dpq.rendered true s =
      (CmdStep.final (Except.ok msg),
        { s with
          script := Resp.ok (QueryResult.data cols [r₀] []) :: rest,
          trace := s.trace ++ [dpq.rendered] }) := by
    unfold commandAttempt execQ
    rw [hscript]
  have hcmd : run_stackql_command dpq.rendered true dpq.options.retries
      dpq.options.retry_delay s =
      (Except.ok msg,
        { s with
          script := Resp.ok (QueryResult.data cols [r₀] []) :: rest,
          trace := s.trace ++ [dpq.rendered] }) := by
    show runCommandLoop (processRegistryPull dpq.rendered) true dpq.options.retries s = _
    rw [processRegistryPull_id dpq.rendered hnr]
    exact runCommandLoop_first dpq.rendered true s _ _ hca dpq.options.retries
  have hdel : deleteResource (c5res nm epq dpq) dpq.rendered dpq.options.retries
      dpq.options.retry_delay false false true s =
      (Except.ok (),
        { s with
          script := Resp.ok (QueryResult.data cols [r₀] []) :: rest,
          trace := s.trace ++ [dpq.rendered] }) := by
    show (run_stackql_command dpq.rendered true dpq.options.retries dpq.options.retry_delay
      >>= fun _ => (pure () : M Unit)) s = _
    rw [bind_step _ _ s msg _ hcmd]
    rfl
  have hcc : countCheck [rowOf cols r₀] = Except.ok [rowOf cols r₀] := by
    unfold countCheck
    simp only [List.headD_cons, hcount]
  have hdt : queryAttemptLast.queryDataTail cols [r₀] true = Except.ok [rowOf cols r₀] := by
    unfold queryAttemptLast.queryDataTail
    simp only [List.isEmpty_cons, Bool.false_eq_true, if_false, List.map_cons, List.map_nil,
      List.headD_cons, herr, hcc]
  have hq2 : run_stackql_query epq.rendered true 0 5
      { s with
        script := Resp.ok (QueryResult.data cols [r₀] []) :: rest,
        trace := s.trace ++ [dpq.rendered] } =
      (Except.ok [rowOf cols r₀],
        { s with
          script := rest,
          trace := (s.trace ++ [dpq.rendered]) ++ [epq.rendered] }) := by
    show queryAttemptLast epq.rendered true
      { s with
        script := Resp.ok (QueryResult.data cols [r₀] []) :: rest,
        trace := s.trace ++ [dpq.rendered] } = _
    unfold queryAttemptLast
    show (queryAttemptLast.queryDataTail cols [r₀] true,
      { s with
        script := rest,
        trace := (s.trace ++ [dpq.rendered]) ++ [epq.rendered] }) = _
    rw [hdt]
  have hclass : runTestClassify [rowOf cols r₀] true = false := by
    unfold runTestClassify
    simp only [List.isEmpty_cons, Bool.false_eq_true, if_false, List.headD_cons,
      herr, hderr, hcount, Option.isSome_none, Bool.or_self, Bool.not_true]
  have hrt : run_test epq.rendered true
      { s with
        script := Resp.ok (QueryResult.data cols [r₀] []) :: rest,
        trace := s.trace ++ [dpq.rendered] } =
      (Except.ok false,
        { s with
          script := rest,
          trace := (s.trace ++ [dpq.rendered]) ++ [epq.rendered] }) := by
    show (run_stackql_query epq.rendered true 0 5 >>= fun result =>
      (pure (runTestClassify result true) : M Bool)) _ = _
    rw [bind_step _ _ _ [rowOf cols r₀] _ hq2]
    rw [hclass]
    rfl
  have hpr1 : perform_retries epq.rendered 1 epq.options.postdelete_retry_delay true
      { s with
        script := Resp.ok (QueryResult.data cols [r₀] []) :: rest,
        trace := s.trace ++ [dpq.rendered] } =
      (Except.ok false,
        { s with
          script := rest,
          trace := (s.trace ++ [dpq.rendered]) ++ [epq.rendered] }) := by
    show (run_test epq.rendered true >>= fun ok =>
      if ok then (pure true : M Bool)
      else perform_retries epq.rendered 0 epq.options.postdelete_retry_delay true) _ = _
    rw [bind_step _ _ _ false _ hrt]
    rfl
  have hchk : checkIfResourceExists (c5res nm epq dpq) epq.rendered
      epq.options.postdelete_retries epq.options.postdelete_retry_delay false false true
      { s with
        script := Resp.ok (QueryResult.data cols [r₀] []) :: rest,
        trace := s.trace ++ [dpq.rendered] } =
      (Except.ok false,
        { s with
          script := rest,
          trace := (s.trace ++ [dpq.rendered]) ++ [epq.rendered] }) := by
    show perform_retries epq.rendered epq.options.postdelete_retries
      epq.options.postdelete_retry_delay true _ = _
    rw [hpd]
    exact hpr1
  show ((deleteResource (c5res nm epq dpq) dpq.rendered dpq.options.retries
      dpq.options.retry_delay false false true) >>= fun _ =>
    (checkIfResourceExists (c5res nm epq dpq) epq.rendered epq.options.postdelete_retries
      epq.options.postdelete_retry_delay false false true) >>= fun resourceDeleted =>
    if resourceDeleted then (pure () : M Unit)
    else if !false then fatal ("failed to delete " ++ nm ++ ".")
    else (pure () : M Unit)) s = _
  rw [bind_step _ _ s () _ hdel]
  rw [bind_step _ _ _ false _ hchk]
  rfl

/-- Witness for C5 (amended): a multi resource whose delete command
succeeds but whose one post-delete probe returns a count-free row; the
teardown run is fatal. -/
theorem claim_C5_witness :
    teardownResource false false
      (c5res "m" { rendered := "E", options := { postdelete_retries := 1 } }
        { rendered := "D" })
      { script := [Resp.ok (QueryResult.command "deleted"),
          Resp.ok (QueryResult.data ["name"] [["x"]] [])],
        trace := [], ctx := [], ext := [] } =
      (Except.error ("failed to delete " ++ "m" ++ "."),
        { script := [], trace := ([] ++ ["D"]) ++ ["E"], ctx := [], ext := [] }) :=
  claim_C5_multi_postdelete_fatal "m" "deleted"
    { rendered := "E", options := { postdelete_retries := 1 } } { rendered := "D" }
    ["name"] ["x"] []
    { script := [Resp.ok (QueryResult.command "deleted"),
        Resp.ok (QueryResult.data ["name"] [["x"]] [])],
      trace := [], ctx := [], ext := [] }
    rfl rfl (by decide) (by decide) (by decide) (by decide)

/-- C5 counterexample: the claim says a failed post-delete re-probe is
tolerated when the resource type is multi, but this concrete non-dry
teardown of a multi resource — delete succeeds, the one-shot post-delete
probe finds `count = 1` (still present) — terminates fatally with the
deletion-failure message. -/
theorem claim_C5_counterexample :
    teardownResource false false
      (c5res "m" { rendered := "E", options := { postdelete_retries := 1 } }
        { rendered := "D" })
      { script := [Resp.ok (QueryResult.command "deleted"),
          Resp.ok (QueryResult.data ["count"] [["1"]] [])],
        trace := [], ctx := [], ext := [] } =
      (Except.error "failed to delete m.",
        { script := [], trace := ["D", "E"], ctx := [], ext := [] }) := by
  decide

end StackqlDeploy
